import Mathlib

/-!
# Resource wrappers of the Zabbix JSON-RPC client

A shallow embedding of the wrapper functions of `application.go`, `proxy.go`,
`user.go`, `user_group.go` and `lld.go`, with theorems about their error and
bookkeeping behaviour.

Conventions of the embedding:

* a Go slice is a `List`; a function that writes through a slice argument
  returns the new contents of the caller's backing array next to its results;
* a Go `error` is `Option Error`, `none` being `nil`; a pointer result is an
  `Option`, `none` being `nil`;
* a run-time panic (failed single-value type assertion, index out of range,
  write to a nil map, explicit `panic`) is the outcome `Outcome.panic`;
* the generic call layer (`CallWithError`, `CallWithErrorParse`) and the
  `encoding/json` functions are not part of these files; they are taken as
  parameters.
-/

set_option linter.dupNamespace false

namespace Zabbix

/-! ## Values and outcomes -/

/-- Dynamic value held by an `interface{}` after `encoding/json` decoding:
`nil`, `bool`, `float64` (kept as its literal text), `string`,
`[]interface{}` and `map[string]interface{}`.  A map is the list of its
entries in the order in which a `range` loop visits them; indexing returns the
first entry with the key. -/
inductive JSON where
  | null
  | bool (b : Bool)
  | num (literal : String)
  | str (s : String)
  | arr (xs : List JSON)
  | obj (kvs : List (String × JSON))

/-- Result of running a Go function body: it returns normally with a value, or
the goroutine unwinds with a run-time panic. -/
inductive Outcome (α : Type) where
  | ret (a : α)
  | panic
  deriving DecidableEq, Repr

/-- Errors a wrapper can return.  `ExpectedOneResult` (an `int`) and
`ExpectedMore` (a struct of `Expected` and `Got`) are the two local errors the
wrappers construct; the other three are the kinds of error the call layer
hands up. -/
inductive Error where
  | transport (msg : String)
  | decode (msg : String)
  | remote (code : Int) (message : String) (data : String)
  | ExpectedOneResult (n : Nat)
  | ExpectedMore (Expected : Nat) (Got : Nat)
  deriving DecidableEq, Repr

/-- Response envelope handed back by `CallWithError`; the wrappers read only
`Result`. -/
structure Response where
  Jsonrpc : String
  Result : JSON
  Id : Int

/-- Parameter bag `Params`, a `map[string]interface{}`; `none` is the nil map. -/
abbrev Params := Option (List (String × JSON))

/-- Single-value assertion `v.(map[string]interface{})`: panics on any other
dynamic type, nil included. -/
def assertMap : JSON → Outcome (List (String × JSON))
  | .obj kvs => .ret kvs
  | _ => .panic

/-- Single-value assertion `v.([]interface{})`. -/
def assertSlice : JSON → Outcome (List JSON)
  | .arr xs => .ret xs
  | _ => .panic

/-- Single-value assertion `v.(string)`. -/
def assertString : JSON → Outcome String
  | .str s => .ret s
  | _ => .panic

/-- Map index expression `m[key]`: the zero value (nil) when the key is absent. -/
def mapIndex (m : List (String × JSON)) (key : String) : JSON :=
  (m.lookup key).getD .null

/-- Map assignment `m[key] = v` on a non-nil map. -/
def mapSet (m : List (String × JSON)) (key : String) (v : JSON) : List (String × JSON) :=
  if (m.lookup key).isSome then m.map (fun kv => if kv.1 == key then (kv.1, v) else kv)
  else m ++ [(key, v)]

/-- The opening lines of every `Get` wrapper:
`if _, present := params["output"]; !present { params["output"] = "extend" }`.
Reading a nil map finds nothing; writing to it panics. -/
def defaultOutput : Params → Outcome Params
  | none => .panic
  | some m =>
    if (m.lookup "output").isSome then .ret (some m)
    else .ret (some (mapSet m "output" (.str "extend")))

/-- The loop `for i, id := range ids { xs[i].ID = id.(string) }` shared by the
create wrappers, started at index `i`: each step asserts that the id is a
string and writes it into element `i`, panicking when the assertion fails or
`i` is out of range. -/
def assignIDs {α : Type} (setID : α → String → α) : List JSON → Nat → List α → Outcome (List α)
  | [], _, xs => .ret xs
  | id :: rest, i, xs =>
    match assertString id with
    | .panic => .panic
    | .ret s =>
      if h : i < xs.length then assignIDs setID rest (i + 1) (xs.set i (setID (xs.get ⟨i, h⟩) s))
      else .panic

/-! ## Resource structs -/

/-- Struct `Application`. -/
structure Application where
  ApplicationID : String
  HostID : String
  Name : String
  TemplateID : String
  deriving DecidableEq, Repr

abbrev Applications := List Application

/-- Struct `Proxy`. -/
structure Proxy where
  ProxyID : String
  Host : String
  Status : Int
  Description : String
  TLSConnect : Int
  TLSAccept : Int
  TLSIssuer : String
  TLSSubject : String
  TLSPSKIdentity : String
  TLSPSK : String
  ProxyAddress : String
  deriving DecidableEq, Repr

abbrev Proxies := List Proxy

/-- Struct `UserGroupID`. -/
structure UserGroupID where
  UserGroupID : String
  deriving DecidableEq, Repr

abbrev usergroupids := List UserGroupID

/-- Struct `User`. -/
structure User where
  UserID : String
  Username : String
  Password : String
  RoleID : String
  Name : String
  Surname : String
  Groups : usergroupids
  deriving DecidableEq, Repr

abbrev Users := List User

/-- Struct `UserGroupPermission`. -/
structure UserGroupPermission where
  ID : String
  Permission : Int
  deriving DecidableEq, Repr

abbrev usergrouppermissions := List UserGroupPermission

/-- Struct `UserGroup`. -/
structure UserGroup where
  UserGroupID : String
  Name : String
  DebugMode : Int
  GUIAccess : Int
  Status : Int
  Permissions : usergrouppermissions
  deriving DecidableEq, Repr

abbrev UserGroups := List UserGroup

/-- Type `HttpHeaders`, declared outside these files.  The wrappers build it
with the composite literal `HttpHeaders{}` and compare it with `nil`, so it is
carried as a nilable string map: `none` is nil, `some []` is `HttpHeaders{}`. -/
abbrev HttpHeaders := Option (List (String × String))

/-- Type `json.RawMessage`: the raw text of a JSON value; the empty text
stands for a message of length zero. -/
abbrev RawMessage := String

/-- Type `ItemType`, declared outside these files; no wrapper inspects it. -/
abbrev ItemType := Int

/-- Type `Preprocessors`, declared outside these files; no wrapper inspects
it.  Each entry is carried as its list of string fields. -/
abbrev Preprocessors := List (List String)

abbrev LLDEvalType := String
abbrev LLDOperatorType := String

/-- Struct `LLDRuleFilterCondition`. -/
structure LLDRuleFilterCondition where
  Macro : String
  Value : String
  FormulaID : String
  Operator : LLDOperatorType
  deriving DecidableEq, Repr

abbrev LLDRuleFilterConditions := List LLDRuleFilterCondition

/-- Struct `LLDRuleFilter`. -/
structure LLDRuleFilter where
  Conditions : LLDRuleFilterConditions
  EvalType : LLDEvalType
  EvalFormula : String
  Formula : String
  deriving DecidableEq, Repr

/-- Struct `LLDMacroPath`. -/
structure LLDMacroPath where
  Macro : String
  Path : String
  deriving DecidableEq, Repr

abbrev LLDMacroPaths := List LLDMacroPath

/-- Struct `LLDRule`; the field `Type` is spelt `Type_`, `Type` being reserved. -/
structure LLDRule where
  ItemID : String
  Delay : String
  HostID : String
  InterfaceID : String
  Key : String
  Name : String
  Type_ : ItemType
  AuthType : String
  DelayFlex : String
  Description : String
  Error : String
  IpmiSensor : String
  LifeTime : String
  Params : String
  PrivateKey : String
  PublicKey : String
  Status : String
  TrapperHosts : String
  MasterItemID : String
  Username : String
  Password : String
  Port : String
  Url : String
  RequestMethod : String
  AllowTraps : String
  PostType : String
  RetrieveMode : String
  Posts : String
  StatusCodes : String
  Timeout : String
  VerifyHost : String
  VerifyPeer : String
  Headers : HttpHeaders
  RawHeaders : RawMessage
  Proxy : String
  FollowRedirects : String
  SNMPOid : String
  SNMPCommunity : String
  SNMPv3AuthPassphrase : String
  SNMPv3AuthProtocol : String
  SNMPv3ContextName : String
  SNMPv3PrivPasshrase : String
  SNMPv3PrivProtocol : String
  SNMPv3SecurityLevel : String
  SNMPv3SecurityName : String
  Preprocessors : Preprocessors
  Filter : LLDRuleFilter
  MacroPaths : LLDMacroPaths
  deriving DecidableEq, Repr

abbrev LLDRules := List LLDRule

/-! ## The call layer, taken as a parameter -/

/-- Dynamic values the wrappers pass as the `params interface{}` argument of
`CallWithError`. -/
inductive CallParams where
  | ids (ids : List String)
  | applications (apps : Applications)
  | proxies (proxies : Proxies)
  | users (users : Users)
  | userGroups (groups : UserGroups)
  | lldRules (items : LLDRules)

/-- Static type of the target a `Get` wrapper hands to `CallWithErrorParse`. -/
inductive Target where
  | applications
  | proxies
  | users
  | userGroups
  | lldRules

/-- Go type of the variable behind a target pointer. -/
@[reducible] def Target.carrier : Target → Type
  | .applications => Applications
  | .proxies => Proxies
  | .users => Users
  | .userGroups => UserGroups
  | .lldRules => LLDRules

/-- The receiver `api` as the wrappers see it.  `CallWithError method params`
returns the response envelope or an error.  `CallWithErrorParse` is called
with a pointer to a nil slice; its model returns the value the call leaves in
that slice together with the returned error. -/
structure API where
  CallWithError : String → CallParams → Except Error Response
  CallWithErrorParse : (t : Target) → String → Params → t.carrier × Option Error

/-- The two `encoding/json` functions `lld.go` applies to header sets:
`json.Unmarshal(raw, &out)` with `out` a fresh `HttpHeaders{}`, giving the
final `out` or the error, and `json.Marshal(headers)`, whose error the source
discards. -/
structure HeadersCodec where
  Unmarshal : RawMessage → Except String HttpHeaders
  Marshal : HttpHeaders → RawMessage

/-- Sequencing of outcomes: a panic in the first part aborts the rest. -/
def Outcome.bind {α β : Type} : Outcome α → (α → Outcome β) → Outcome β
  | .ret a, f => f a
  | .panic, _ => .panic

/-! ## application.go -/

/-- Wrapper `ApplicationsGet`; returns the caller's bag after the call, the
result and the error. -/
def ApplicationsGet (api : API) (params : Params) : Outcome (Params × Applications × Option Error) :=
  (defaultOutput params).bind fun params =>
    let r := api.CallWithErrorParse .applications "application.get" params
    .ret (params, r.1, r.2)

/-- Wrapper `ApplicationGetByID`. -/
def ApplicationGetByID (api : API) (id : String) : Outcome (Option Application × Option Error) :=
  (ApplicationsGet api (some [("applicationids", .str id)])).bind fun r =>
    match r.2.2 with
    | some err => .ret (none, some err)
    | none =>
      let apps := r.2.1
      if h : apps.length = 1 then .ret (some (apps.get ⟨0, by omega⟩), none)
      else .ret (none, some (.ExpectedOneResult apps.length))

/-- Wrapper `ApplicationGetByHostIDAndName`. -/
def ApplicationGetByHostIDAndName (api : API) (hostID name : String) :
    Outcome (Option Application × Option Error) :=
  (ApplicationsGet api (some [("hostids", .str hostID), ("filter", .obj [("name", .str name)])])).bind fun r =>
    match r.2.2 with
    | some err => .ret (none, some err)
    | none =>
      let apps := r.2.1
      if h : apps.length = 1 then .ret (some (apps.get ⟨0, by omega⟩), none)
      else .ret (none, some (.ExpectedOneResult apps.length))

/-- Wrapper `ApplicationsCreate`; returns the caller's slice contents after
the call and the error. -/
def ApplicationsCreate (api : API) (apps : Applications) : Outcome (Applications × Option Error) :=
  match api.CallWithError "application.create" (.applications apps) with
  | .error err => .ret (apps, some err)
  | .ok response =>
    (assertMap response.Result).bind fun result =>
    (assertSlice (mapIndex result "applicationids")).bind fun applicationids =>
    (assignIDs (fun a id => { a with ApplicationID := id }) applicationids 0 apps).bind fun apps =>
    .ret (apps, none)

/-- Wrapper `ApplicationsDeleteByIds`. -/
def ApplicationsDeleteByIds (api : API) (ids : List String) : Outcome (Option Error) :=
  match api.CallWithError "application.delete" (.ids ids) with
  | .error err => .ret (some err)
  | .ok response =>
    (assertMap response.Result).bind fun result =>
    (assertSlice (mapIndex result "applicationids")).bind fun applicationids =>
    if ids.length ≠ applicationids.length then
      .ret (some (.ExpectedMore ids.length applicationids.length))
    else .ret none

/-- Wrapper `ApplicationsDelete`; returns the caller's slice contents after
the call and the error. -/
def ApplicationsDelete (api : API) (apps : Applications) : Outcome (Applications × Option Error) :=
  let ids := apps.map (fun app => app.ApplicationID)
  (ApplicationsDeleteByIds api ids).bind fun err =>
    match err with
    | none => .ret (apps.map (fun a => { a with ApplicationID := "" }), none)
    | some e => .ret (apps, some e)

/-! ## proxy.go -/

/-- Wrapper `ProxiesGet`. -/
def ProxiesGet (api : API) (params : Params) : Outcome (Params × Proxies × Option Error) :=
  (defaultOutput params).bind fun params =>
    let r := api.CallWithErrorParse .proxies "proxy.get" params
    .ret (params, r.1, r.2)

/-- Wrapper `ProxyGetByID`. -/
def ProxyGetByID (api : API) (id : String) : Outcome (Option Proxy × Option Error) :=
  (ProxiesGet api (some [("proxyids", .str id)])).bind fun r =>
    match r.2.2 with
    | some err => .ret (none, some err)
    | none =>
      let groups := r.2.1
      if h : groups.length = 1 then .ret (some (groups.get ⟨0, by omega⟩), none)
      else .ret (none, some (.ExpectedOneResult groups.length))

/-- Wrapper `ProxiesCreate`. -/
def ProxiesCreate (api : API) (proxies : Proxies) : Outcome (Proxies × Option Error) :=
  match api.CallWithError "proxy.create" (.proxies proxies) with
  | .error err => .ret (proxies, some err)
  | .ok response =>
    (assertMap response.Result).bind fun result =>
    (assertSlice (mapIndex result "proxyids")).bind fun proxyids =>
    (assignIDs (fun a id => { a with ProxyID := id }) proxyids 0 proxies).bind fun proxies =>
    .ret (proxies, none)

/-- Wrapper `ProxiesUpdate`. -/
def ProxiesUpdate (api : API) (proxies : Proxies) : Outcome (Option Error) :=
  match api.CallWithError "proxy.update" (.proxies proxies) with
  | .error err => .ret (some err)
  | .ok _ => .ret none

/-- Wrapper `ProxiesDeleteByIds`. -/
def ProxiesDeleteByIds (api : API) (ids : List String) : Outcome (Option Error) :=
  match api.CallWithError "proxy.delete" (.ids ids) with
  | .error err => .ret (some err)
  | .ok response =>
    (assertMap response.Result).bind fun result =>
    (assertSlice (mapIndex result "proxyids")).bind fun proxyids =>
    if ids.length ≠ proxyids.length then
      .ret (some (.ExpectedMore ids.length proxyids.length))
    else .ret none

/-- Wrapper `ProxiesDelete`. -/
def ProxiesDelete (api : API) (proxies : Proxies) : Outcome (Proxies × Option Error) :=
  let ids := proxies.map (fun proxy => proxy.ProxyID)
  (ProxiesDeleteByIds api ids).bind fun err =>
    match err with
    | none => .ret (proxies.map (fun a => { a with ProxyID := "" }), none)
    | some e => .ret (proxies, some e)

/-! ## user.go -/

/-- Wrapper `UsersGet`. -/
def UsersGet (api : API) (params : Params) : Outcome (Params × Users × Option Error) :=
  (defaultOutput params).bind fun params =>
    let r := api.CallWithErrorParse .users "user.get" params
    .ret (params, r.1, r.2)

/-- Wrapper `UserGetByID`. -/
def UserGetByID (api : API) (id : String) : Outcome (Option User × Option Error) :=
  (UsersGet api (some [("userids", .str id)])).bind fun r =>
    match r.2.2 with
    | some err => .ret (none, some err)
    | none =>
      let groups := r.2.1
      if h : groups.length = 1 then .ret (some (groups.get ⟨0, by omega⟩), none)
      else .ret (none, some (.ExpectedOneResult groups.length))

/-- Wrapper `UsersCreate`. -/
def UsersCreate (api : API) (users : Users) : Outcome (Users × Option Error) :=
  match api.CallWithError "user.create" (.users users) with
  | .error err => .ret (users, some err)
  | .ok response =>
    (assertMap response.Result).bind fun result =>
    (assertSlice (mapIndex result "userids")).bind fun userids =>
    (assignIDs (fun a id => { a with UserID := id }) userids 0 users).bind fun users =>
    .ret (users, none)

/-- Wrapper `UsersUpdate`. -/
def UsersUpdate (api : API) (users : Users) : Outcome (Option Error) :=
  match api.CallWithError "user.update" (.users users) with
  | .error err => .ret (some err)
  | .ok _ => .ret none

/-- Wrapper `UsersDeleteByIds`. -/
def UsersDeleteByIds (api : API) (ids : List String) : Outcome (Option Error) :=
  match api.CallWithError "user.delete" (.ids ids) with
  | .error err => .ret (some err)
  | .ok response =>
    (assertMap response.Result).bind fun result =>
    (assertSlice (mapIndex result "userids")).bind fun userids =>
    if ids.length ≠ userids.length then
      .ret (some (.ExpectedMore ids.length userids.length))
    else .ret none

/-- Wrapper `UsersDelete`. -/
def UsersDelete (api : API) (users : Users) : Outcome (Users × Option Error) :=
  let ids := users.map (fun user => user.UserID)
  (UsersDeleteByIds api ids).bind fun err =>
    match err with
    | none => .ret (users.map (fun a => { a with UserID := "" }), none)
    | some e => .ret (users, some e)

/-! ## user_group.go -/

/-- Wrapper `UserGroupsGet`. -/
def UserGroupsGet (api : API) (params : Params) : Outcome (Params × UserGroups × Option Error) :=
  (defaultOutput params).bind fun params =>
    let r := api.CallWithErrorParse .userGroups "usergroup.get" params
    .ret (params, r.1, r.2)

/-- Wrapper `UserGroupGetByID`. -/
def UserGroupGetByID (api : API) (id : String) : Outcome (Option UserGroup × Option Error) :=
  (UserGroupsGet api (some [("usrgrpids", .str id)])).bind fun r =>
    match r.2.2 with
    | some err => .ret (none, some err)
    | none =>
      let groups := r.2.1
      if h : groups.length = 1 then .ret (some (groups.get ⟨0, by omega⟩), none)
      else .ret (none, some (.ExpectedOneResult groups.length))

/-- Wrapper `UserGroupsCreate`. -/
def UserGroupsCreate (api : API) (groups : UserGroups) : Outcome (UserGroups × Option Error) :=
  match api.CallWithError "usergroup.create" (.userGroups groups) with
  | .error err => .ret (groups, some err)
  | .ok response =>
    (assertMap response.Result).bind fun result =>
    (assertSlice (mapIndex result "usrgrpids")).bind fun usergroupids =>
    (assignIDs (fun a id => { a with UserGroupID := id }) usergroupids 0 groups).bind fun groups =>
    .ret (groups, none)

/-- Wrapper `UserGroupsUpdate`. -/
def UserGroupsUpdate (api : API) (groups : UserGroups) : Outcome (Option Error) :=
  match api.CallWithError "usergroup.update" (.userGroups groups) with
  | .error err => .ret (some err)
  | .ok _ => .ret none

/-- Wrapper `UserGroupsDeleteByIds`. -/
def UserGroupsDeleteByIds (api : API) (ids : List String) : Outcome (Option Error) :=
  match api.CallWithError "usergroup.delete" (.ids ids) with
  | .error err => .ret (some err)
  | .ok response =>
    (assertMap response.Result).bind fun result =>
    (assertSlice (mapIndex result "usrgrpids")).bind fun usergroupids =>
    if ids.length ≠ usergroupids.length then
      .ret (some (.ExpectedMore ids.length usergroupids.length))
    else .ret none

/-- Wrapper `UserGroupsDelete`. -/
def UserGroupsDelete (api : API) (groups : UserGroups) : Outcome (UserGroups × Option Error) :=
  let ids := groups.map (fun usergroup => usergroup.UserGroupID)
  (UserGroupsDeleteByIds api ids).bind fun err =>
    match err with
    | none => .ret (groups.map (fun a => { a with UserGroupID := "" }), none)
    | some e => .ret (groups, some e)

/-! ## lld.go -/

/-- Method `lldsHeadersUnmarshal`: for each rule in turn, `Headers` is reset to
`HttpHeaders{}`; a rule whose raw headers are empty or the text `[]` keeps
that; otherwise the raw headers are decoded and a decoding error panics. -/
def lldsHeadersUnmarshal (codec : HeadersCodec) : LLDRules → Outcome LLDRules
  | [] => .ret []
  | h :: rest =>
    if h.RawHeaders.length = 0 then
      (lldsHeadersUnmarshal codec rest).bind fun rest => .ret ({ h with Headers := some [] } :: rest)
    else if h.RawHeaders = "[]" then
      (lldsHeadersUnmarshal codec rest).bind fun rest => .ret ({ h with Headers := some [] } :: rest)
    else
      match codec.Unmarshal h.RawHeaders with
      | .error _ => .panic
      | .ok out =>
        (lldsHeadersUnmarshal codec rest).bind fun rest => .ret ({ h with Headers := out } :: rest)

/-- Function `prepLLDs`: every rule whose `Headers` is not nil gets `RawHeaders`
set to the encoding of its headers. -/
def prepLLDs (codec : HeadersCodec) (item : LLDRules) : LLDRules :=
  item.map fun h =>
    if h.Headers = none then h
    else { h with RawHeaders := codec.Marshal h.Headers }

/-- Wrapper `LLDsGet`: the header decoding runs on whatever the call left in
`res`, whether or not the call returned an error. -/
def LLDsGet (api : API) (codec : HeadersCodec) (params : Params) :
    Outcome (Params × LLDRules × Option Error) :=
  (defaultOutput params).bind fun params =>
    let r := api.CallWithErrorParse .lldRules "discoveryrule.get" params
    (lldsHeadersUnmarshal codec r.1).bind fun res =>
    .ret (params, res, r.2)

/-- Wrapper `LLDGetByID`. -/
def LLDGetByID (api : API) (codec : HeadersCodec) (id : String) : Outcome (Option LLDRule × Option Error) :=
  (LLDsGet api codec (some [("itemids", .str id)])).bind fun r =>
    match r.2.2 with
    | some err => .ret (none, some err)
    | none =>
      let items := r.2.1
      if h : items.length ≠ 1 then .ret (none, some (.ExpectedOneResult items.length))
      else .ret (some (items.get ⟨0, by omega⟩), none)

/-- Wrapper `LLDsCreate`. -/
def LLDsCreate (api : API) (codec : HeadersCodec) (items : LLDRules) : Outcome (LLDRules × Option Error) :=
  let items := prepLLDs codec items
  match api.CallWithError "discoveryrule.create" (.lldRules items) with
  | .error err => .ret (items, some err)
  | .ok response =>
    (assertMap response.Result).bind fun result =>
    (assertSlice (mapIndex result "itemids")).bind fun itemids =>
    (assignIDs (fun a id => { a with ItemID := id }) itemids 0 items).bind fun items =>
    .ret (items, none)

/-- Wrapper `LLDsUpdate`. -/
def LLDsUpdate (api : API) (codec : HeadersCodec) (items : LLDRules) : Outcome (LLDRules × Option Error) :=
  let items := prepLLDs codec items
  match api.CallWithError "discoveryrule.update" (.lldRules items) with
  | .error err => .ret (items, some err)
  | .ok _ => .ret (items, none)

/-- Wrapper `LLDDeleteIDs`: the ids the server reports as deleted, read from
`ruleids` either as a sequence or as a mapping whose values are collected in
iteration order. -/
def LLDDeleteIDs (api : API) (ids : List String) : Outcome (List JSON × Option Error) :=
  match api.CallWithError "discoveryrule.delete" (.ids ids) with
  | .error err => .ret ([], some err)
  | .ok response =>
    (assertMap response.Result).bind fun result =>
    match mapIndex result "ruleids" with
    | .arr itemids1 => .ret (itemids1, none)
    | v =>
      (assertMap v).bind fun itemids2 =>
      .ret (itemids2.foldl (fun itemids kv => itemids ++ [kv.2]) [], none)

/-- Wrapper `LLDDeleteByIds`. -/
def LLDDeleteByIds (api : API) (ids : List String) : Outcome (Option Error) :=
  (LLDDeleteIDs api ids).bind fun r =>
    match r.2 with
    | some err => .ret (some err)
    | none =>
      let l := r.1.length
      if ids.length ≠ l then .ret (some (.ExpectedMore ids.length l))
      else .ret none

/-- Wrapper `LLDsDelete`. -/
def LLDsDelete (api : API) (items : LLDRules) : Outcome (LLDRules × Option Error) :=
  let ids := items.map (fun item => item.ItemID)
  (LLDDeleteByIds api ids).bind fun err =>
    match err with
    | none => .ret (items.map (fun a => { a with ItemID := "" }), none)
    | some e => .ret (items, some e)

/-! ## Sample values used to exercise the theorems -/

/-- Zero value of `Application` with the given id. -/
def sampleApplication (id : String) : Application :=
  { ApplicationID := id, HostID := "", Name := "", TemplateID := "" }

/-- Zero value of `Proxy` with the given id. -/
def sampleProxy (id : String) : Proxy :=
  { ProxyID := id, Host := "", Status := 0, Description := "", TLSConnect := 0, TLSAccept := 0,
    TLSIssuer := "", TLSSubject := "", TLSPSKIdentity := "", TLSPSK := "", ProxyAddress := "" }

/-- Zero value of `User` with the given id. -/
def sampleUser (id : String) : User :=
  { UserID := id, Username := "", Password := "", RoleID := "", Name := "", Surname := "", Groups := [] }

/-- Zero value of `UserGroup` with the given id. -/
def sampleUserGroup (id : String) : UserGroup :=
  { UserGroupID := id, Name := "", DebugMode := 0, GUIAccess := 0, Status := 0, Permissions := [] }

/-- Zero value of `LLDRule` with the given id, headers and raw headers. -/
def sampleLLDRule (id : String) (headers : HttpHeaders) (raw : RawMessage) : LLDRule :=
  { ItemID := id, Delay := "", HostID := "", InterfaceID := "", Key := "", Name := "", Type_ := 0,
    AuthType := "", DelayFlex := "", Description := "", Error := "", IpmiSensor := "", LifeTime := "",
    Params := "", PrivateKey := "", PublicKey := "", Status := "", TrapperHosts := "",
    MasterItemID := "", Username := "", Password := "", Port := "", Url := "", RequestMethod := "",
    AllowTraps := "", PostType := "", RetrieveMode := "", Posts := "", StatusCodes := "",
    Timeout := "", VerifyHost := "", VerifyPeer := "", Headers := headers, RawHeaders := raw,
    Proxy := "", FollowRedirects := "", SNMPOid := "", SNMPCommunity := "",
    SNMPv3AuthPassphrase := "", SNMPv3AuthProtocol := "", SNMPv3ContextName := "",
    SNMPv3PrivPasshrase := "", SNMPv3PrivProtocol := "", SNMPv3SecurityLevel := "",
    SNMPv3SecurityName := "", Preprocessors := [],
    Filter := ⟨[], "", "", ""⟩, MacroPaths := [] }

/-- A server that answers every `CallWithError` with `r` and leaves, for every
`CallWithErrorParse`, `n` zero-valued entities with id `id` in the target,
returning `err`. -/
def sampleAPI (r : Except Error Response) (n : Nat) (id : String) (err : Option Error) : API where
  CallWithError := fun _ _ => r
  CallWithErrorParse := fun t _ _ =>
    match t with
    | .applications => (List.replicate n (sampleApplication id), err)
    | .proxies => (List.replicate n (sampleProxy id), err)
    | .users => (List.replicate n (sampleUser id), err)
    | .userGroups => (List.replicate n (sampleUserGroup id), err)
    | .lldRules => (List.replicate n (sampleLLDRule id none ""), err)

/-- A successful response envelope with the given result. -/
def sampleResponse (result : JSON) : Except Error Response :=
  .ok { Jsonrpc := "2.0", Result := result, Id := 1 }

/-- A header codec that accepts only the text of the empty object. -/
def sampleCodec : HeadersCodec where
  Unmarshal := fun raw => if raw = "\x7b\x7d" then .ok (some []) else .error "json: cannot unmarshal"
  Marshal := fun h => match h with
    | none => "null"
    | some _ => "\x7b\x7d"

/-- A result object holding `v` under every id key the wrappers read. -/
def sampleResult (v : JSON) : JSON :=
  .obj [("applicationids", v), ("proxyids", v), ("userids", v), ("usrgrpids", v), ("itemids", v),
    ("ruleids", v)]

/-- A server whose every call fails with `e`; a failed `discoveryrule.get` leaves the
rules `rules`, decoded before the failure was reported, in the target. -/
def failedAPI (e : Error) (rules : LLDRules) : API where
  CallWithError := fun _ _ => .error e
  CallWithErrorParse := fun t _ _ =>
    match t with
    | .applications => ([], some e)
    | .proxies => ([], some e)
    | .users => ([], some e)
    | .userGroups => ([], some e)
    | .lldRules => (rules, some e)

/-- Shape test: the value is an object whose entry `key` is a sequence. -/
def hasSequenceAt (key : String) : JSON → Bool
  | .obj result =>
    match mapIndex result key with
    | .arr _ => true
    | _ => false
  | _ => false

/-- Shape test: the value is an object whose entry `key` is a mapping. -/
def hasMappingAt (key : String) : JSON → Bool
  | .obj result =>
    match mapIndex result key with
    | .obj _ => true
    | _ => false
  | _ => false

/-- Contents of the caller's slice when a call of `lldsHeadersUnmarshal` ends, by
return or by panic.  The loop writes in place, so at a decoding error the rules before
the failing one have been processed, the failing rule has had `Headers` reset to
`HttpHeaders{}`, and the rules after it have not been touched. -/
def lldsHeadersUnmarshalSlice (codec : HeadersCodec) : LLDRules → LLDRules
  | [] => []
  | h :: rest =>
    if h.RawHeaders.length = 0 then
      { h with Headers := some [] } :: lldsHeadersUnmarshalSlice codec rest
    else if h.RawHeaders = "[]" then
      { h with Headers := some [] } :: lldsHeadersUnmarshalSlice codec rest
    else
      match codec.Unmarshal h.RawHeaders with
      | .error _ => { h with Headers := some [] } :: rest
      | .ok out => { h with Headers := out } :: lldsHeadersUnmarshalSlice codec rest

/-- Number of ids a delete result reports under `key` as a sequence, if it has that
shape. -/
def deletedCount (key : String) : JSON → Option Nat
  | .obj result =>
    match mapIndex result key with
    | .arr l => some l.length
    | _ => none
  | _ => none

/-- Number of ids a `discoveryrule.delete` result reports under `ruleids`, as a sequence
or as a mapping, if it has one of these shapes. -/
def lldDeletedCount : JSON → Option Nat
  | .obj result =>
    match mapIndex result "ruleids" with
    | .arr l => some l.length
    | .obj m => some m.length
    | _ => none
  | _ => none

/-! ## Basic facts about outcomes -/

@[simp] theorem Outcome.bind_ret {α β : Type} (a : α) (f : α → Outcome β) :
    (Outcome.ret a).bind f = f a := rfl

@[simp] theorem Outcome.bind_panic {α β : Type} (f : α → Outcome β) :
    (Outcome.panic : Outcome α).bind f = .panic := rfl

/-! ## Get-by-id: cardinality -/

/-- C1: for each get-by-id wrapper (ApplicationGetByID, ApplicationGetByHostIDAndName,
ProxyGetByID, UserGetByID, UserGroupGetByID, LLDGetByID), whenever the underlying Get
wrapper succeeds with a result sequence of exactly one element `a`, the wrapper returns
a nil error and a result equal to `a`. -/
theorem getByID_single (api : API) (codec : HeadersCodec) (id hostID name : String) :
    (∀ p a, ApplicationsGet api (some [("applicationids", .str id)]) = .ret (p, [a], none) →
      ApplicationGetByID api id = .ret (some a, none)) ∧
    (∀ p a, ApplicationsGet api (some [("hostids", .str hostID), ("filter", .obj [("name", .str name)])])
        = .ret (p, [a], none) →
      ApplicationGetByHostIDAndName api hostID name = .ret (some a, none)) ∧
    (∀ p a, ProxiesGet api (some [("proxyids", .str id)]) = .ret (p, [a], none) →
      ProxyGetByID api id = .ret (some a, none)) ∧
    (∀ p a, UsersGet api (some [("userids", .str id)]) = .ret (p, [a], none) →
      UserGetByID api id = .ret (some a, none)) ∧
    (∀ p a, UserGroupsGet api (some [("usrgrpids", .str id)]) = .ret (p, [a], none) →
      UserGroupGetByID api id = .ret (some a, none)) ∧
    (∀ p a, LLDsGet api codec (some [("itemids", .str id)]) = .ret (p, [a], none) →
      LLDGetByID api codec id = .ret (some a, none)) := by
  refine ⟨?_, ?_, ?_, ?_, ?_, ?_⟩ <;> intro p a h
  · simp [ApplicationGetByID, h]
  · simp [ApplicationGetByHostIDAndName, h]
  · simp [ProxyGetByID, h]
  · simp [UserGetByID, h]
  · simp [UserGroupGetByID, h]
  · simp [LLDGetByID, h]

/-- Witness of C1: a server holding exactly one entity with id 7. -/
theorem getByID_single_witness :
    ApplicationGetByID (sampleAPI (.error (.transport "")) 1 "7" none) "7"
      = .ret (some (sampleApplication "7"), none) ∧
    ApplicationGetByHostIDAndName (sampleAPI (.error (.transport "")) 1 "7" none) "h" "n"
      = .ret (some (sampleApplication "7"), none) ∧
    ProxyGetByID (sampleAPI (.error (.transport "")) 1 "7" none) "7"
      = .ret (some (sampleProxy "7"), none) ∧
    UserGetByID (sampleAPI (.error (.transport "")) 1 "7" none) "7"
      = .ret (some (sampleUser "7"), none) ∧
    UserGroupGetByID (sampleAPI (.error (.transport "")) 1 "7" none) "7"
      = .ret (some (sampleUserGroup "7"), none) ∧
    LLDGetByID (sampleAPI (.error (.transport "")) 1 "7" none) sampleCodec "7"
      = .ret (some (sampleLLDRule "7" (some []) ""), none) :=
  have t := getByID_single (sampleAPI (.error (.transport "")) 1 "7" none) sampleCodec "7" "h" "n"
  ⟨t.1 _ _ rfl, t.2.1 _ _ rfl, t.2.2.1 _ _ rfl, t.2.2.2.1 _ _ rfl, t.2.2.2.2.1 _ _ rfl,
    t.2.2.2.2.2 _ _ rfl⟩

/-- C2: for each get-by-id wrapper, whenever the underlying Get wrapper succeeds with a
result sequence of length `n` with `n = 0` or `n ≥ 2`, the wrapper returns a nil result
together with the error `ExpectedOneResult n`. -/
theorem getByID_cardinality (api : API) (codec : HeadersCodec) (id hostID name : String) :
    (∀ p res, ApplicationsGet api (some [("applicationids", .str id)]) = .ret (p, res, none) →
      res.length = 0 ∨ 2 ≤ res.length →
      ApplicationGetByID api id = .ret (none, some (.ExpectedOneResult res.length))) ∧
    (∀ p res, ApplicationsGet api (some [("hostids", .str hostID), ("filter", .obj [("name", .str name)])])
        = .ret (p, res, none) →
      res.length = 0 ∨ 2 ≤ res.length →
      ApplicationGetByHostIDAndName api hostID name = .ret (none, some (.ExpectedOneResult res.length))) ∧
    (∀ p res, ProxiesGet api (some [("proxyids", .str id)]) = .ret (p, res, none) →
      res.length = 0 ∨ 2 ≤ res.length →
      ProxyGetByID api id = .ret (none, some (.ExpectedOneResult res.length))) ∧
    (∀ p res, UsersGet api (some [("userids", .str id)]) = .ret (p, res, none) →
      res.length = 0 ∨ 2 ≤ res.length →
      UserGetByID api id = .ret (none, some (.ExpectedOneResult res.length))) ∧
    (∀ p res, UserGroupsGet api (some [("usrgrpids", .str id)]) = .ret (p, res, none) →
      res.length = 0 ∨ 2 ≤ res.length →
      UserGroupGetByID api id = .ret (none, some (.ExpectedOneResult res.length))) ∧
    (∀ p res, LLDsGet api codec (some [("itemids", .str id)]) = .ret (p, res, none) →
      res.length = 0 ∨ 2 ≤ res.length →
      LLDGetByID api codec id = .ret (none, some (.ExpectedOneResult res.length))) := by
  refine ⟨?_, ?_, ?_, ?_, ?_, ?_⟩ <;> intro p res h hn <;>
    have h1 : ¬ res.length = 1 := by omega
  · simp [ApplicationGetByID, h, h1]
  · simp [ApplicationGetByHostIDAndName, h, h1]
  · simp [ProxyGetByID, h, h1]
  · simp [UserGetByID, h, h1]
  · simp [UserGroupGetByID, h, h1]
  · simp [LLDGetByID, h, h1]

/-- Witness of C2: a server holding two entities with id 7. -/
theorem getByID_cardinality_witness :
    ApplicationGetByID (sampleAPI (.error (.transport "")) 2 "7" none) "7"
      = .ret (none, some (.ExpectedOneResult 2)) ∧
    ApplicationGetByHostIDAndName (sampleAPI (.error (.transport "")) 2 "7" none) "h" "n"
      = .ret (none, some (.ExpectedOneResult 2)) ∧
    ProxyGetByID (sampleAPI (.error (.transport "")) 2 "7" none) "7"
      = .ret (none, some (.ExpectedOneResult 2)) ∧
    UserGetByID (sampleAPI (.error (.transport "")) 2 "7" none) "7"
      = .ret (none, some (.ExpectedOneResult 2)) ∧
    UserGroupGetByID (sampleAPI (.error (.transport "")) 2 "7" none) "7"
      = .ret (none, some (.ExpectedOneResult 2)) ∧
    LLDGetByID (sampleAPI (.error (.transport "")) 2 "7" none) sampleCodec "7"
      = .ret (none, some (.ExpectedOneResult 2)) :=
  have t := getByID_cardinality (sampleAPI (.error (.transport "")) 2 "7" none) sampleCodec "7" "h" "n"
  ⟨t.1 _ _ rfl (Or.inr (Nat.le_refl 2)), t.2.1 _ _ rfl (Or.inr (Nat.le_refl 2)),
    t.2.2.1 _ _ rfl (Or.inr (Nat.le_refl 2)), t.2.2.2.1 _ _ rfl (Or.inr (Nat.le_refl 2)),
    t.2.2.2.2.1 _ _ rfl (Or.inr (Nat.le_refl 2)), t.2.2.2.2.2 _ _ rfl (Or.inr (Nat.le_refl 2))⟩

/-- The append loop of `LLDDeleteIDs` collects the values of the mapping, one per entry,
in iteration order. -/
theorem foldl_append_values (m : List (String × JSON)) (acc : List JSON) :
    m.foldl (fun itemids kv => itemids ++ [kv.2]) acc = acc ++ m.map Prod.snd := by
  induction m generalizing acc with
  | nil => simp
  | cons kv rest ih => simp [ih]

/-! ## Delete: count check and id clearing -/

/-- C3: for each delete-by-ids wrapper, when the remote call succeeds and its result
reports `M` deleted ids under the wrapper's key (as a sequence, or for LLD also as a
mapping), the wrapper returns `ExpectedMore{N, M}` with `N` the number of requested ids
if `M ≠ N`, and nil if `M = N`. -/
theorem deleteByIds_count (api : API) (ids : List String) (response : Response)
    (result : List (String × JSON)) (hres : response.Result = .obj result) :
    (∀ l, api.CallWithError "application.delete" (.ids ids) = .ok response →
      mapIndex result "applicationids" = .arr l →
      ApplicationsDeleteByIds api ids
        = .ret (if l.length = ids.length then none else some (.ExpectedMore ids.length l.length))) ∧
    (∀ l, api.CallWithError "proxy.delete" (.ids ids) = .ok response →
      mapIndex result "proxyids" = .arr l →
      ProxiesDeleteByIds api ids
        = .ret (if l.length = ids.length then none else some (.ExpectedMore ids.length l.length))) ∧
    (∀ l, api.CallWithError "user.delete" (.ids ids) = .ok response →
      mapIndex result "userids" = .arr l →
      UsersDeleteByIds api ids
        = .ret (if l.length = ids.length then none else some (.ExpectedMore ids.length l.length))) ∧
    (∀ l, api.CallWithError "usergroup.delete" (.ids ids) = .ok response →
      mapIndex result "usrgrpids" = .arr l →
      UserGroupsDeleteByIds api ids
        = .ret (if l.length = ids.length then none else some (.ExpectedMore ids.length l.length))) ∧
    (∀ l, api.CallWithError "discoveryrule.delete" (.ids ids) = .ok response →
      mapIndex result "ruleids" = .arr l →
      LLDDeleteByIds api ids
        = .ret (if l.length = ids.length then none else some (.ExpectedMore ids.length l.length))) ∧
    (∀ m, api.CallWithError "discoveryrule.delete" (.ids ids) = .ok response →
      mapIndex result "ruleids" = .obj m →
      LLDDeleteByIds api ids
        = .ret (if m.length = ids.length then none else some (.ExpectedMore ids.length m.length))) := by
  refine ⟨?_, ?_, ?_, ?_, ?_, ?_⟩ <;> intro l hcall hkey <;>
    have hc : (ids.length = l.length) = (l.length = ids.length) := propext eq_comm
  · by_cases h : l.length = ids.length <;>
      simp [ApplicationsDeleteByIds, hcall, hres, hkey, assertMap, assertSlice, hc, h]
  · by_cases h : l.length = ids.length <;>
      simp [ProxiesDeleteByIds, hcall, hres, hkey, assertMap, assertSlice, hc, h]
  · by_cases h : l.length = ids.length <;>
      simp [UsersDeleteByIds, hcall, hres, hkey, assertMap, assertSlice, hc, h]
  · by_cases h : l.length = ids.length <;>
      simp [UserGroupsDeleteByIds, hcall, hres, hkey, assertMap, assertSlice, hc, h]
  · by_cases h : l.length = ids.length <;>
      simp [LLDDeleteByIds, LLDDeleteIDs, hcall, hres, hkey, assertMap, hc, h]
  · by_cases h : l.length = ids.length <;>
      simp [LLDDeleteByIds, LLDDeleteIDs, hcall, hres, hkey, assertMap, foldl_append_values, hc, h]

/-- Witness of C3: two ids requested, one reported deleted, as a sequence and as a mapping. -/
theorem deleteByIds_count_witness :
    ApplicationsDeleteByIds (sampleAPI (sampleResponse (sampleResult (.arr [.str "1"]))) 0 "" none)
        ["1", "2"] = .ret (some (.ExpectedMore 2 1)) ∧
    ProxiesDeleteByIds (sampleAPI (sampleResponse (sampleResult (.arr [.str "1"]))) 0 "" none)
        ["1", "2"] = .ret (some (.ExpectedMore 2 1)) ∧
    UsersDeleteByIds (sampleAPI (sampleResponse (sampleResult (.arr [.str "1"]))) 0 "" none)
        ["1", "2"] = .ret (some (.ExpectedMore 2 1)) ∧
    UserGroupsDeleteByIds (sampleAPI (sampleResponse (sampleResult (.arr [.str "1"]))) 0 "" none)
        ["1", "2"] = .ret (some (.ExpectedMore 2 1)) ∧
    LLDDeleteByIds (sampleAPI (sampleResponse (sampleResult (.arr [.str "1"]))) 0 "" none)
        ["1", "2"] = .ret (some (.ExpectedMore 2 1)) ∧
    LLDDeleteByIds (sampleAPI (sampleResponse (sampleResult (.obj [("0", .str "1")]))) 0 "" none)
        ["1", "2"] = .ret (some (.ExpectedMore 2 1)) :=
  have t := deleteByIds_count (sampleAPI (sampleResponse (sampleResult (.arr [.str "1"]))) 0 "" none)
    ["1", "2"] ⟨"2.0", sampleResult (.arr [.str "1"]), 1⟩ _ rfl
  have u := deleteByIds_count
    (sampleAPI (sampleResponse (sampleResult (.obj [("0", .str "1")]))) 0 "" none)
    ["1", "2"] ⟨"2.0", sampleResult (.obj [("0", .str "1")]), 1⟩ _ rfl
  ⟨t.1 _ rfl rfl, t.2.1 _ rfl rfl, t.2.2.1 _ rfl rfl, t.2.2.2.1 _ rfl rfl, t.2.2.2.2.1 _ rfl rfl,
    u.2.2.2.2.2 _ rfl rfl⟩

/-- C4: for each delete wrapper over structs, if the delete-by-ids call on the ids of
the input sequence returns nil, the wrapper returns nil and the caller's sequence is the
input sequence with the id field of every element set to the empty string: same length,
same order, every other field of every element unchanged. -/
theorem delete_clears_ids (api : API) :
    (∀ apps : Applications,
      ApplicationsDeleteByIds api (apps.map (fun a => a.ApplicationID)) = .ret none →
      ApplicationsDelete api apps = .ret (apps.map (fun a => { a with ApplicationID := "" }), none)) ∧
    (∀ proxies : Proxies,
      ProxiesDeleteByIds api (proxies.map (fun a => a.ProxyID)) = .ret none →
      ProxiesDelete api proxies = .ret (proxies.map (fun a => { a with ProxyID := "" }), none)) ∧
    (∀ users : Users,
      UsersDeleteByIds api (users.map (fun a => a.UserID)) = .ret none →
      UsersDelete api users = .ret (users.map (fun a => { a with UserID := "" }), none)) ∧
    (∀ groups : UserGroups,
      UserGroupsDeleteByIds api (groups.map (fun a => a.UserGroupID)) = .ret none →
      UserGroupsDelete api groups = .ret (groups.map (fun a => { a with UserGroupID := "" }), none)) ∧
    (∀ items : LLDRules,
      LLDDeleteByIds api (items.map (fun a => a.ItemID)) = .ret none →
      LLDsDelete api items = .ret (items.map (fun a => { a with ItemID := "" }), none)) := by
  refine ⟨?_, ?_, ?_, ?_, ?_⟩ <;> intro xs h
  · simp [ApplicationsDelete, h]
  · simp [ProxiesDelete, h]
  · simp [UsersDelete, h]
  · simp [UserGroupsDelete, h]
  · simp [LLDsDelete, h]

/-- Witness of C4: one entity with id 1, and the server reports one deleted id. -/
theorem delete_clears_ids_witness :
    ApplicationsDelete (sampleAPI (sampleResponse (sampleResult (.arr [.str "1"]))) 0 "" none)
        [sampleApplication "1"] = .ret ([sampleApplication ""], none) ∧
    ProxiesDelete (sampleAPI (sampleResponse (sampleResult (.arr [.str "1"]))) 0 "" none)
        [sampleProxy "1"] = .ret ([sampleProxy ""], none) ∧
    UsersDelete (sampleAPI (sampleResponse (sampleResult (.arr [.str "1"]))) 0 "" none)
        [sampleUser "1"] = .ret ([sampleUser ""], none) ∧
    UserGroupsDelete (sampleAPI (sampleResponse (sampleResult (.arr [.str "1"]))) 0 "" none)
        [sampleUserGroup "1"] = .ret ([sampleUserGroup ""], none) ∧
    LLDsDelete (sampleAPI (sampleResponse (sampleResult (.arr [.str "1"]))) 0 "" none)
        [sampleLLDRule "1" none ""] = .ret ([sampleLLDRule "" none ""], none) :=
  have t := delete_clears_ids (sampleAPI (sampleResponse (sampleResult (.arr [.str "1"]))) 0 "" none)
  ⟨t.1 [sampleApplication "1"] rfl, t.2.1 [sampleProxy "1"] rfl, t.2.2.1 [sampleUser "1"] rfl,
    t.2.2.2.1 [sampleUserGroup "1"] rfl, t.2.2.2.2 [sampleLLDRule "1" none ""] rfl⟩

/-- C5: for each delete wrapper over structs, if the delete-by-ids call on the ids of
the input sequence returns an error, the wrapper returns that same error and the caller's
sequence is exactly the input sequence. -/
theorem delete_error_keeps_ids (api : API) (e : Error) :
    (∀ apps : Applications,
      ApplicationsDeleteByIds api (apps.map (fun a => a.ApplicationID)) = .ret (some e) →
      ApplicationsDelete api apps = .ret (apps, some e)) ∧
    (∀ proxies : Proxies,
      ProxiesDeleteByIds api (proxies.map (fun a => a.ProxyID)) = .ret (some e) →
      ProxiesDelete api proxies = .ret (proxies, some e)) ∧
    (∀ users : Users,
      UsersDeleteByIds api (users.map (fun a => a.UserID)) = .ret (some e) →
      UsersDelete api users = .ret (users, some e)) ∧
    (∀ groups : UserGroups,
      UserGroupsDeleteByIds api (groups.map (fun a => a.UserGroupID)) = .ret (some e) →
      UserGroupsDelete api groups = .ret (groups, some e)) ∧
    (∀ items : LLDRules,
      LLDDeleteByIds api (items.map (fun a => a.ItemID)) = .ret (some e) →
      LLDsDelete api items = .ret (items, some e)) := by
  refine ⟨?_, ?_, ?_, ?_, ?_⟩ <;> intro xs h
  · simp [ApplicationsDelete, h]
  · simp [ProxiesDelete, h]
  · simp [UsersDelete, h]
  · simp [UserGroupsDelete, h]
  · simp [LLDsDelete, h]

/-- Witness of C5: one entity with id 1, and the server reports two deleted ids. -/
theorem delete_error_keeps_ids_witness :
    ApplicationsDelete (sampleAPI (sampleResponse (sampleResult (.arr [.str "1", .str "2"]))) 0 "" none)
        [sampleApplication "1"] = .ret ([sampleApplication "1"], some (.ExpectedMore 1 2)) ∧
    ProxiesDelete (sampleAPI (sampleResponse (sampleResult (.arr [.str "1", .str "2"]))) 0 "" none)
        [sampleProxy "1"] = .ret ([sampleProxy "1"], some (.ExpectedMore 1 2)) ∧
    UsersDelete (sampleAPI (.error (.remote (-32602) "Invalid params." "")) 0 "" none)
        [sampleUser "1"] = .ret ([sampleUser "1"], some (.remote (-32602) "Invalid params." "")) ∧
    UserGroupsDelete (sampleAPI (sampleResponse (sampleResult (.arr [.str "1", .str "2"]))) 0 "" none)
        [sampleUserGroup "1"] = .ret ([sampleUserGroup "1"], some (.ExpectedMore 1 2)) ∧
    LLDsDelete (sampleAPI (sampleResponse (sampleResult (.arr [.str "1", .str "2"]))) 0 "" none)
        [sampleLLDRule "1" none ""] = .ret ([sampleLLDRule "1" none ""], some (.ExpectedMore 1 2)) :=
  have t := delete_error_keeps_ids
    (sampleAPI (sampleResponse (sampleResult (.arr [.str "1", .str "2"]))) 0 "" none)
    (.ExpectedMore 1 2)
  have u := delete_error_keeps_ids (sampleAPI (.error (.remote (-32602) "Invalid params." "")) 0 "" none)
    (.remote (-32602) "Invalid params." "")
  ⟨t.1 [sampleApplication "1"] rfl, t.2.1 [sampleProxy "1"] rfl, u.2.2.1 [sampleUser "1"] rfl,
    t.2.2.2.1 [sampleUserGroup "1"] rfl, t.2.2.2.2 [sampleLLDRule "1" none ""] rfl⟩

/-- C6: `LLDDeleteIDs` accepts both shapes of a successful `discoveryrule.delete`
result holding the key `ruleids`: for a sequence it returns exactly that sequence, for a
mapping it returns the mapping's values, one per entry in iteration order (so as many ids
as the mapping has entries); the error is nil in both cases, and `LLDDeleteByIds` compares
the number of requested ids with the length of the returned list. -/
theorem lldDeleteIDs_shapes (api : API) (ids : List String) (response : Response)
    (result : List (String × JSON))
    (hcall : api.CallWithError "discoveryrule.delete" (.ids ids) = .ok response)
    (hres : response.Result = .obj result) :
    (∀ l, mapIndex result "ruleids" = .arr l → LLDDeleteIDs api ids = .ret (l, none)) ∧
    (∀ m, mapIndex result "ruleids" = .obj m →
      LLDDeleteIDs api ids = .ret (m.map Prod.snd, none) ∧ (m.map Prod.snd).length = m.length) ∧
    (∀ itemids, LLDDeleteIDs api ids = .ret (itemids, none) →
      LLDDeleteByIds api ids
        = .ret (if ids.length ≠ itemids.length then some (.ExpectedMore ids.length itemids.length)
            else none)) := by
  refine ⟨?_, ?_, ?_⟩
  · intro l hkey
    simp [LLDDeleteIDs, hcall, hres, hkey, assertMap]
  · intro m hkey
    simp [LLDDeleteIDs, hcall, hres, hkey, assertMap, foldl_append_values]
  · intro itemids h
    by_cases hn : ids.length = itemids.length <;> simp [LLDDeleteByIds, h, hn]

/-- Witness of C6: a mapping of two deleted rules. -/
theorem lldDeleteIDs_shapes_witness :
    LLDDeleteIDs (sampleAPI (sampleResponse (sampleResult (.obj [("0", .str "8"), ("1", .str "9")])))
        0 "" none) ["8", "9"] = .ret ([.str "8", .str "9"], none) ∧
    LLDDeleteByIds (sampleAPI (sampleResponse (sampleResult (.obj [("0", .str "8"), ("1", .str "9")])))
        0 "" none) ["8", "9"] = .ret none :=
  have t := lldDeleteIDs_shapes
    (sampleAPI (sampleResponse (sampleResult (.obj [("0", .str "8"), ("1", .str "9")]))) 0 "" none)
    ["8", "9"] ⟨"2.0", sampleResult (.obj [("0", .str "8"), ("1", .str "9")]), 1⟩ _ rfl rfl
  ⟨(t.2.1 _ rfl).1, t.2.2 _ (t.2.1 _ rfl).1⟩

/-! ## Errors from the call layer -/

/-- Every Get wrapper other than `LLDsGet` returns the error of `CallWithErrorParse`
unchanged, next to whatever the call left in the target. -/
theorem get_error_passthrough (api : API) (params p : Params) (e : Error)
    (hp : defaultOutput params = .ret p) :
    ((api.CallWithErrorParse .applications "application.get" p).2 = some e →
      ApplicationsGet api params
        = .ret (p, (api.CallWithErrorParse .applications "application.get" p).1, some e)) ∧
    ((api.CallWithErrorParse .proxies "proxy.get" p).2 = some e →
      ProxiesGet api params
        = .ret (p, (api.CallWithErrorParse .proxies "proxy.get" p).1, some e)) ∧
    ((api.CallWithErrorParse .users "user.get" p).2 = some e →
      UsersGet api params
        = .ret (p, (api.CallWithErrorParse .users "user.get" p).1, some e)) ∧
    ((api.CallWithErrorParse .userGroups "usergroup.get" p).2 = some e →
      UserGroupsGet api params
        = .ret (p, (api.CallWithErrorParse .userGroups "usergroup.get" p).1, some e)) := by
  refine ⟨?_, ?_, ?_, ?_⟩ <;> intro h
  · simp only [ApplicationsGet, hp, Outcome.bind_ret, h]
  · simp only [ProxiesGet, hp, Outcome.bind_ret, h]
  · simp only [UsersGet, hp, Outcome.bind_ret, h]
  · simp only [UserGroupsGet, hp, Outcome.bind_ret, h]

/-- Every get-by-id wrapper returns a nil result and the error of its Get wrapper
unchanged. -/
theorem getByID_error_passthrough (api : API) (codec : HeadersCodec) (id hostID name : String)
    (e : Error) :
    (∀ p res, ApplicationsGet api (some [("applicationids", .str id)]) = .ret (p, res, some e) →
      ApplicationGetByID api id = .ret (none, some e)) ∧
    (∀ p res, ApplicationsGet api (some [("hostids", .str hostID), ("filter", .obj [("name", .str name)])])
        = .ret (p, res, some e) →
      ApplicationGetByHostIDAndName api hostID name = .ret (none, some e)) ∧
    (∀ p res, ProxiesGet api (some [("proxyids", .str id)]) = .ret (p, res, some e) →
      ProxyGetByID api id = .ret (none, some e)) ∧
    (∀ p res, UsersGet api (some [("userids", .str id)]) = .ret (p, res, some e) →
      UserGetByID api id = .ret (none, some e)) ∧
    (∀ p res, UserGroupsGet api (some [("usrgrpids", .str id)]) = .ret (p, res, some e) →
      UserGroupGetByID api id = .ret (none, some e)) ∧
    (∀ p res, LLDsGet api codec (some [("itemids", .str id)]) = .ret (p, res, some e) →
      LLDGetByID api codec id = .ret (none, some e)) := by
  refine ⟨?_, ?_, ?_, ?_, ?_, ?_⟩ <;> intro p res h
  · simp [ApplicationGetByID, h]
  · simp [ApplicationGetByHostIDAndName, h]
  · simp [ProxyGetByID, h]
  · simp [UserGetByID, h]
  · simp [UserGroupGetByID, h]
  · simp [LLDGetByID, h]

/-- Every create, update and delete-by-ids wrapper returns the error of `CallWithError`
unchanged and leaves the caller's sequence as it was when the call was made. -/
theorem mutation_error_passthrough (api : API) (codec : HeadersCodec) (e : Error) :
    (∀ apps, api.CallWithError "application.create" (.applications apps) = .error e →
      ApplicationsCreate api apps = .ret (apps, some e)) ∧
    (∀ xs, api.CallWithError "proxy.create" (.proxies xs) = .error e →
      ProxiesCreate api xs = .ret (xs, some e)) ∧
    (∀ xs, api.CallWithError "user.create" (.users xs) = .error e →
      UsersCreate api xs = .ret (xs, some e)) ∧
    (∀ xs, api.CallWithError "usergroup.create" (.userGroups xs) = .error e →
      UserGroupsCreate api xs = .ret (xs, some e)) ∧
    (∀ xs, api.CallWithError "discoveryrule.create" (.lldRules (prepLLDs codec xs)) = .error e →
      LLDsCreate api codec xs = .ret (prepLLDs codec xs, some e)) ∧
    (∀ xs, api.CallWithError "proxy.update" (.proxies xs) = .error e →
      ProxiesUpdate api xs = .ret (some e)) ∧
    (∀ xs, api.CallWithError "user.update" (.users xs) = .error e →
      UsersUpdate api xs = .ret (some e)) ∧
    (∀ xs, api.CallWithError "usergroup.update" (.userGroups xs) = .error e →
      UserGroupsUpdate api xs = .ret (some e)) ∧
    (∀ xs, api.CallWithError "discoveryrule.update" (.lldRules (prepLLDs codec xs)) = .error e →
      LLDsUpdate api codec xs = .ret (prepLLDs codec xs, some e)) ∧
    (∀ ids, api.CallWithError "application.delete" (.ids ids) = .error e →
      ApplicationsDeleteByIds api ids = .ret (some e)) ∧
    (∀ ids, api.CallWithError "proxy.delete" (.ids ids) = .error e →
      ProxiesDeleteByIds api ids = .ret (some e)) ∧
    (∀ ids, api.CallWithError "user.delete" (.ids ids) = .error e →
      UsersDeleteByIds api ids = .ret (some e)) ∧
    (∀ ids, api.CallWithError "usergroup.delete" (.ids ids) = .error e →
      UserGroupsDeleteByIds api ids = .ret (some e)) ∧
    (∀ ids, api.CallWithError "discoveryrule.delete" (.ids ids) = .error e →
      LLDDeleteIDs api ids = .ret ([], some e) ∧ LLDDeleteByIds api ids = .ret (some e)) := by
  refine ⟨?_, ?_, ?_, ?_, ?_, ?_, ?_, ?_, ?_, ?_, ?_, ?_, ?_, ?_⟩ <;> intro xs h
  · simp [ApplicationsCreate, h]
  · simp [ProxiesCreate, h]
  · simp [UsersCreate, h]
  · simp [UserGroupsCreate, h]
  · simp [LLDsCreate, h]
  · simp [ProxiesUpdate, h]
  · simp [UsersUpdate, h]
  · simp [UserGroupsUpdate, h]
  · simp [LLDsUpdate, h]
  · simp [ApplicationsDeleteByIds, h]
  · simp [ProxiesDeleteByIds, h]
  · simp [UsersDeleteByIds, h]
  · simp [UserGroupsDeleteByIds, h]
  · simp [LLDDeleteByIds, LLDDeleteIDs, h]

/-- What `LLDsGet` does when `CallWithErrorParse` fails with `e`: it first decodes the
headers of the rules the failed call left in the target, and returns `e` only if that
decoding does not panic. -/
theorem LLDsGet_on_error (api : API) (codec : HeadersCodec) (params p : Params) (e : Error)
    (hp : defaultOutput params = .ret p)
    (h : (api.CallWithErrorParse .lldRules "discoveryrule.get" p).2 = some e) :
    LLDsGet api codec params
      = (lldsHeadersUnmarshal codec (api.CallWithErrorParse .lldRules "discoveryrule.get" p).1).bind
          fun res => .ret (p, res, some e) := by
  simp [LLDsGet, hp, h]

/-- C7, at the failing input: `discoveryrule.get` fails with a decode error after one
rule was decoded whose raw headers are a JSON array of name and value objects, which the
header codec rejects.  `LLDsGet` decodes headers before looking at the error, so it
panics instead of returning the error, and `LLDGetByID` panics with it. -/
theorem LLDsGet_error_not_returned :
    LLDsGet
      (failedAPI (.decode "json: cannot unmarshal number into Go struct field LLDRule.delay of type string")
        [sampleLLDRule "1" none "[\x7b\"name\":\"A\",\"value\":\"b\"\x7d]"])
      sampleCodec (some [("itemids", .str "1")]) = .panic ∧
    LLDGetByID
      (failedAPI (.decode "json: cannot unmarshal number into Go struct field LLDRule.delay of type string")
        [sampleLLDRule "1" none "[\x7b\"name\":\"A\",\"value\":\"b\"\x7d]"])
      sampleCodec "1" = .panic := by
  constructor <;> rfl

/-! ## Delete-by-ids: unexpected result shapes -/

/-- C8 as stated fails: a successful envelope whose result is an object without the ids
key makes `ApplicationsDeleteByIds` panic, and a `ruleids` value that is a string makes
`LLDDeleteIDs` panic; neither returns nil or an error value. -/
theorem deleteByIds_shape_counterexample :
    ApplicationsDeleteByIds (sampleAPI (sampleResponse (.obj [])) 0 "" none) ["1"] = .panic ∧
    (¬ ∃ err, ApplicationsDeleteByIds (sampleAPI (sampleResponse (.obj [])) 0 "" none) ["1"]
      = .ret err) ∧
    LLDDeleteIDs (sampleAPI (sampleResponse (sampleResult (.str "1"))) 0 "" none) ["1"] = .panic ∧
    (¬ ∃ r, LLDDeleteIDs (sampleAPI (sampleResponse (sampleResult (.str "1"))) 0 "" none) ["1"]
      = .ret r) := by
  have h1 : ApplicationsDeleteByIds (sampleAPI (sampleResponse (.obj [])) 0 "" none) ["1"]
      = .panic := rfl
  have h2 : LLDDeleteIDs (sampleAPI (sampleResponse (sampleResult (.str "1"))) 0 "" none) ["1"]
      = .panic := rfl
  refine ⟨h1, ?_, h2, ?_⟩
  · rintro ⟨err, h⟩
    rw [h1] at h
    cases h
  · rintro ⟨r, h⟩
    rw [h2] at h
    cases h

/-- C8, amended: for each delete-by-ids wrapper and every envelope the call returns
without error: when the result is an object whose ids key holds a sequence of `M` ids, or
for the two LLD wrappers a sequence or a mapping of `M` ids, the wrapper returns normally,
with nil if `M` is the number of requested ids and with the count-mismatch error
`ExpectedMore` of the requested count and `M` otherwise (`LLDDeleteIDs` returns `M` ids
and a nil error); on every other result shape it panics. -/
theorem deleteByIds_shape (api : API) (ids : List String) (response : Response) :
    (api.CallWithError "application.delete" (.ids ids) = .ok response →
      if hasSequenceAt "applicationids" response.Result
      then ∃ M, deletedCount "applicationids" response.Result = some M ∧
        ApplicationsDeleteByIds api ids
          = .ret (if M = ids.length then none else some (.ExpectedMore ids.length M))
      else ApplicationsDeleteByIds api ids = .panic) ∧
    (api.CallWithError "proxy.delete" (.ids ids) = .ok response →
      if hasSequenceAt "proxyids" response.Result
      then ∃ M, deletedCount "proxyids" response.Result = some M ∧
        ProxiesDeleteByIds api ids
          = .ret (if M = ids.length then none else some (.ExpectedMore ids.length M))
      else ProxiesDeleteByIds api ids = .panic) ∧
    (api.CallWithError "user.delete" (.ids ids) = .ok response →
      if hasSequenceAt "userids" response.Result
      then ∃ M, deletedCount "userids" response.Result = some M ∧
        UsersDeleteByIds api ids
          = .ret (if M = ids.length then none else some (.ExpectedMore ids.length M))
      else UsersDeleteByIds api ids = .panic) ∧
    (api.CallWithError "usergroup.delete" (.ids ids) = .ok response →
      if hasSequenceAt "usrgrpids" response.Result
      then ∃ M, deletedCount "usrgrpids" response.Result = some M ∧
        UserGroupsDeleteByIds api ids
          = .ret (if M = ids.length then none else some (.ExpectedMore ids.length M))
      else UserGroupsDeleteByIds api ids = .panic) ∧
    (api.CallWithError "discoveryrule.delete" (.ids ids) = .ok response →
      if hasSequenceAt "ruleids" response.Result || hasMappingAt "ruleids" response.Result
      then ∃ M, lldDeletedCount response.Result = some M ∧
        (∃ itemids, LLDDeleteIDs api ids = .ret (itemids, none) ∧ itemids.length = M) ∧
        LLDDeleteByIds api ids
          = .ret (if M = ids.length then none else some (.ExpectedMore ids.length M))
      else LLDDeleteIDs api ids = .panic ∧ LLDDeleteByIds api ids = .panic) := by
  obtain ⟨j, v, i⟩ := response
  refine ⟨?_, ?_, ?_, ?_, ?_⟩ <;> intro hcall
  · cases v with
    | obj result =>
      cases hk : mapIndex result "applicationids" with
      | arr l =>
        have hc : (ids.length = l.length) = (l.length = ids.length) := propext eq_comm
        by_cases h : l.length = ids.length <;>
          simp [ApplicationsDeleteByIds, hcall, hasSequenceAt, deletedCount, assertMap,
            assertSlice, hk, hc, h]
      | _ => simp [ApplicationsDeleteByIds, hcall, hasSequenceAt, assertMap, assertSlice, hk]
    | _ => simp [ApplicationsDeleteByIds, hcall, hasSequenceAt, assertMap]
  · cases v with
    | obj result =>
      cases hk : mapIndex result "proxyids" with
      | arr l =>
        have hc : (ids.length = l.length) = (l.length = ids.length) := propext eq_comm
        by_cases h : l.length = ids.length <;>
          simp [ProxiesDeleteByIds, hcall, hasSequenceAt, deletedCount, assertMap,
            assertSlice, hk, hc, h]
      | _ => simp [ProxiesDeleteByIds, hcall, hasSequenceAt, assertMap, assertSlice, hk]
    | _ => simp [ProxiesDeleteByIds, hcall, hasSequenceAt, assertMap]
  · cases v with
    | obj result =>
      cases hk : mapIndex result "userids" with
      | arr l =>
        have hc : (ids.length = l.length) = (l.length = ids.length) := propext eq_comm
        by_cases h : l.length = ids.length <;>
          simp [UsersDeleteByIds, hcall, hasSequenceAt, deletedCount, assertMap,
            assertSlice, hk, hc, h]
      | _ => simp [UsersDeleteByIds, hcall, hasSequenceAt, assertMap, assertSlice, hk]
    | _ => simp [UsersDeleteByIds, hcall, hasSequenceAt, assertMap]
  · cases v with
    | obj result =>
      cases hk : mapIndex result "usrgrpids" with
      | arr l =>
        have hc : (ids.length = l.length) = (l.length = ids.length) := propext eq_comm
        by_cases h : l.length = ids.length <;>
          simp [UserGroupsDeleteByIds, hcall, hasSequenceAt, deletedCount, assertMap,
            assertSlice, hk, hc, h]
      | _ => simp [UserGroupsDeleteByIds, hcall, hasSequenceAt, assertMap, assertSlice, hk]
    | _ => simp [UserGroupsDeleteByIds, hcall, hasSequenceAt, assertMap]
  · cases v with
    | obj result =>
      cases hk : mapIndex result "ruleids" with
      | arr l =>
        have hc : (ids.length = l.length) = (l.length = ids.length) := propext eq_comm
        by_cases h : l.length = ids.length <;>
          simp [LLDDeleteByIds, LLDDeleteIDs, hcall, hasSequenceAt, hasMappingAt, lldDeletedCount,
            assertMap, hk, hc, h]
      | obj m =>
        have hc : (ids.length = m.length) = (m.length = ids.length) := propext eq_comm
        by_cases h : m.length = ids.length <;>
          simp [LLDDeleteByIds, LLDDeleteIDs, hcall, hasSequenceAt, hasMappingAt, lldDeletedCount,
            assertMap, foldl_append_values, hk, hc, h]
      | _ => simp [LLDDeleteByIds, LLDDeleteIDs, hcall, hasSequenceAt, hasMappingAt, assertMap, hk]
    | _ => simp [LLDDeleteByIds, LLDDeleteIDs, hcall, hasSequenceAt, hasMappingAt, assertMap]

/-- Witness of the amended C8: a result without the ids keys makes every wrapper panic;
a result holding a one-element sequence makes the wrappers return nil for one requested
id and the count-mismatch error for two. -/
theorem deleteByIds_shape_witness :
    (ApplicationsDeleteByIds (sampleAPI (sampleResponse (.obj [])) 0 "" none) ["1"] = .panic ∧
      ProxiesDeleteByIds (sampleAPI (sampleResponse (.obj [])) 0 "" none) ["1"] = .panic ∧
      UsersDeleteByIds (sampleAPI (sampleResponse (.obj [])) 0 "" none) ["1"] = .panic ∧
      UserGroupsDeleteByIds (sampleAPI (sampleResponse (.obj [])) 0 "" none) ["1"] = .panic ∧
      LLDDeleteIDs (sampleAPI (sampleResponse (.obj [])) 0 "" none) ["1"] = .panic ∧
      LLDDeleteByIds (sampleAPI (sampleResponse (.obj [])) 0 "" none) ["1"] = .panic) ∧
    (ApplicationsDeleteByIds
        (sampleAPI (sampleResponse (sampleResult (.arr [.str "1"]))) 0 "" none) ["1"] = .ret none ∧
      LLDDeleteByIds
        (sampleAPI (sampleResponse (sampleResult (.arr [.str "1"]))) 0 "" none) ["1", "2"]
        = .ret (some (.ExpectedMore 2 1))) := by
  have t := deleteByIds_shape (sampleAPI (sampleResponse (.obj [])) 0 "" none) ["1"]
    ⟨"2.0", .obj [], 1⟩
  have u := deleteByIds_shape (sampleAPI (sampleResponse (sampleResult (.arr [.str "1"]))) 0 "" none)
    ["1"] ⟨"2.0", sampleResult (.arr [.str "1"]), 1⟩
  have w := deleteByIds_shape (sampleAPI (sampleResponse (sampleResult (.arr [.str "1"]))) 0 "" none)
    ["1", "2"] ⟨"2.0", sampleResult (.arr [.str "1"]), 1⟩
  refine ⟨⟨t.1 rfl, t.2.1 rfl, t.2.2.1 rfl, t.2.2.2.1 rfl, (t.2.2.2.2 rfl).1, (t.2.2.2.2 rfl).2⟩,
    ?_, ?_⟩
  · obtain ⟨M, hM, hw⟩ := u.1 rfl
    have hM1 : some 1 = some M := hM
    cases hM1
    exact hw
  · obtain ⟨M, hM, _, hw⟩ := w.2.2.2.2 rfl
    have hM1 : some 1 = some M := hM
    cases hM1
    exact hw

/-! ## Create: writing the returned ids back -/

/-- The id loop on string ids, started behind an already processed front `pre`: when
there are at most as many ids as remaining elements, the first elements take the ids in
order and the others are left alone. -/
theorem assignIDs_strings {α : Type} (setID : α → String → α) (l : List String) :
    ∀ (pre ys : List α), l.length ≤ ys.length →
      assignIDs setID (l.map JSON.str) pre.length (pre ++ ys)
        = .ret (pre ++ (List.zipWith setID ys l ++ ys.drop l.length)) := by
  induction l with
  | nil => intro pre ys _; simp [assignIDs]
  | cons s rest ih =>
    intro pre ys h
    cases ys with
    | nil => simp at h
    | cons y ys =>
      have hlen : rest.length ≤ ys.length := by simpa using h
      have step := ih (pre ++ [setID y s]) ys hlen
      simp only [List.length_append, List.length_singleton, List.append_assoc,
        List.singleton_append] at step
      have hg : ∀ hb : pre.length < (pre ++ y :: ys).length, (pre ++ y :: ys)[pre.length] = y := by
        intro hb
        rw [List.getElem_append_right (Nat.le_refl _)]
        simp
      simp [assignIDs, assertString, hg, step]

/-- The id loop panics whenever it is handed more ids than there are elements left. -/
theorem assignIDs_too_many {α : Type} (setID : α → String → α) (ids : List JSON) :
    ∀ (i : Nat) (xs : List α), i ≤ xs.length → xs.length < i + ids.length →
      assignIDs setID ids i xs = .panic := by
  induction ids with
  | nil => intro i xs hi h; simp at h; omega
  | cons id rest ih =>
    intro i xs hi h
    cases id <;> simp only [assignIDs, assertString]
    split
    · apply ih
      · simp only [List.length_set]
        omega
      · simp only [List.length_set, List.length_cons] at h ⊢
        omega
    · rfl

/-- The id loop panics whenever one of the ids is not a string. -/
theorem assignIDs_not_string {α : Type} (setID : α → String → α) (ids : List JSON)
    (h : ∃ id ∈ ids, ∀ s, id ≠ JSON.str s) :
    ∀ (i : Nat) (xs : List α), assignIDs setID ids i xs = .panic := by
  induction ids with
  | nil =>
    obtain ⟨id, hm, _⟩ := h
    cases hm
  | cons id rest ih =>
    intro i xs
    cases id with
    | str s =>
      have hrest : ∃ id ∈ rest, ∀ s, id ≠ JSON.str s := by
        obtain ⟨x, hx, hns⟩ := h
        rcases List.mem_cons.1 hx with e | e
        · exact absurd e (hns s)
        · exact ⟨x, e, hns⟩
      simp only [assignIDs, assertString]
      split
      · exact ih hrest _ _
      · rfl
    | _ => simp only [assignIDs, assertString]

/-- The id loop from index 0 on string ids, no more ids than elements. -/
theorem assignIDs_zero {α : Type} (setID : α → String → α) (l : List String) (xs : List α)
    (h : l.length ≤ xs.length) :
    assignIDs setID (l.map JSON.str) 0 xs = .ret (List.zipWith setID xs l ++ xs.drop l.length) := by
  simpa using assignIDs_strings setID l [] xs h

/-- C9: for each create wrapper, when the call succeeds and the id list of the response
holds as many string ids as the input sequence has elements, the wrapper returns nil and
the caller's sequence becomes the input sequence with the id field of element `i` set to
the `i`-th returned id: same length, every other field unchanged (for `LLDsCreate` the
input sequence is the one `prepLLDs` has prepared). -/
theorem create_assigns_ids (api : API) (codec : HeadersCodec) (response : Response)
    (result : List (String × JSON)) (l : List String) (hres : response.Result = .obj result) :
    (∀ apps : Applications,
      api.CallWithError "application.create" (.applications apps) = .ok response →
      mapIndex result "applicationids" = .arr (l.map JSON.str) → l.length = apps.length →
      ApplicationsCreate api apps
        = .ret (List.zipWith (fun a id => { a with ApplicationID := id }) apps l, none)) ∧
    (∀ proxies : Proxies,
      api.CallWithError "proxy.create" (.proxies proxies) = .ok response →
      mapIndex result "proxyids" = .arr (l.map JSON.str) → l.length = proxies.length →
      ProxiesCreate api proxies
        = .ret (List.zipWith (fun a id => { a with ProxyID := id }) proxies l, none)) ∧
    (∀ users : Users,
      api.CallWithError "user.create" (.users users) = .ok response →
      mapIndex result "userids" = .arr (l.map JSON.str) → l.length = users.length →
      UsersCreate api users
        = .ret (List.zipWith (fun a id => { a with UserID := id }) users l, none)) ∧
    (∀ groups : UserGroups,
      api.CallWithError "usergroup.create" (.userGroups groups) = .ok response →
      mapIndex result "usrgrpids" = .arr (l.map JSON.str) → l.length = groups.length →
      UserGroupsCreate api groups
        = .ret (List.zipWith (fun a id => { a with UserGroupID := id }) groups l, none)) ∧
    (∀ items : LLDRules,
      api.CallWithError "discoveryrule.create" (.lldRules (prepLLDs codec items)) = .ok response →
      mapIndex result "itemids" = .arr (l.map JSON.str) → l.length = items.length →
      LLDsCreate api codec items
        = .ret (List.zipWith (fun a id => { a with ItemID := id }) (prepLLDs codec items) l, none)) := by
  refine ⟨?_, ?_, ?_, ?_, ?_⟩ <;> intro xs hcall hkey hlen
  · simp [ApplicationsCreate, hcall, hres, hkey, assertMap, assertSlice,
      assignIDs_zero _ l xs (Nat.le_of_eq hlen), hlen]
  · simp [ProxiesCreate, hcall, hres, hkey, assertMap, assertSlice,
      assignIDs_zero _ l xs (Nat.le_of_eq hlen), hlen]
  · simp [UsersCreate, hcall, hres, hkey, assertMap, assertSlice,
      assignIDs_zero _ l xs (Nat.le_of_eq hlen), hlen]
  · simp [UserGroupsCreate, hcall, hres, hkey, assertMap, assertSlice,
      assignIDs_zero _ l xs (Nat.le_of_eq hlen), hlen]
  · have hlen2 : l.length = (prepLLDs codec xs).length := by simp [prepLLDs, hlen]
    simp [LLDsCreate, hcall, hres, hkey, assertMap, assertSlice,
      assignIDs_zero _ l (prepLLDs codec xs) (Nat.le_of_eq hlen2), hlen2]

/-- Witness of C9: two entities created, ids 10 and 11 returned. -/
theorem create_assigns_ids_witness :
    ApplicationsCreate (sampleAPI (sampleResponse (sampleResult (.arr [.str "10", .str "11"]))) 0 "" none)
        [sampleApplication "", sampleApplication ""]
      = .ret ([sampleApplication "10", sampleApplication "11"], none) ∧
    ProxiesCreate (sampleAPI (sampleResponse (sampleResult (.arr [.str "10", .str "11"]))) 0 "" none)
        [sampleProxy "", sampleProxy ""]
      = .ret ([sampleProxy "10", sampleProxy "11"], none) ∧
    UsersCreate (sampleAPI (sampleResponse (sampleResult (.arr [.str "10", .str "11"]))) 0 "" none)
        [sampleUser "", sampleUser ""]
      = .ret ([sampleUser "10", sampleUser "11"], none) ∧
    UserGroupsCreate (sampleAPI (sampleResponse (sampleResult (.arr [.str "10", .str "11"]))) 0 "" none)
        [sampleUserGroup "", sampleUserGroup ""]
      = .ret ([sampleUserGroup "10", sampleUserGroup "11"], none) ∧
    LLDsCreate (sampleAPI (sampleResponse (sampleResult (.arr [.str "10", .str "11"]))) 0 "" none)
        sampleCodec [sampleLLDRule "" none "", sampleLLDRule "" (some []) ""]
      = .ret ([sampleLLDRule "10" none "", sampleLLDRule "11" (some []) "\x7b\x7d"], none) :=
  have t := create_assigns_ids
    (sampleAPI (sampleResponse (sampleResult (.arr [.str "10", .str "11"]))) 0 "" none) sampleCodec
    ⟨"2.0", sampleResult (.arr [.str "10", .str "11"]), 1⟩ _ ["10", "11"] rfl
  ⟨t.1 [sampleApplication "", sampleApplication ""] rfl rfl rfl,
    t.2.1 [sampleProxy "", sampleProxy ""] rfl rfl rfl,
    t.2.2.1 [sampleUser "", sampleUser ""] rfl rfl rfl,
    t.2.2.2.1 [sampleUserGroup "", sampleUserGroup ""] rfl rfl rfl,
    t.2.2.2.2 [sampleLLDRule "" none "", sampleLLDRule "" (some []) ""] rfl rfl rfl⟩

/-- C10 as stated fails: with two elements and one returned id `ApplicationsCreate`
returns nil having written an id into the first element only, and with one element and
two returned ids it does not return at all. -/
theorem create_count_counterexample :
    ApplicationsCreate (sampleAPI (sampleResponse (sampleResult (.arr [.str "10"]))) 0 "" none)
        [sampleApplication "", sampleApplication ""]
      = .ret ([sampleApplication "10", sampleApplication ""], none) ∧
    ApplicationsCreate (sampleAPI (sampleResponse (sampleResult (.arr [.str "10", .str "11"]))) 0 "" none)
        [sampleApplication ""] = .panic := by
  constructor <;> rfl

/-- C10, amended: for each create wrapper, every input sequence of `n` elements and
every successful response whose id list holds `k` ids.  If `k ≤ n` and every id is a
string, the wrapper returns nil: the first `k` elements carry the returned ids in order
and the remaining `n - k` elements are as they were when the call was made, so all `n`
elements carry a returned id only when `k = n`.  If `k > n`, or some id is not a string,
the wrapper panics.  It never returns an error on a successful response.  For
`LLDsCreate` the sequence the call is made with is the one `prepLLDs` has prepared, which
rewrites the raw headers of every rule with non-nil headers, the remaining ones included. -/
theorem create_count (api : API) (codec : HeadersCodec) (response : Response)
    (result : List (String × JSON)) (ids : List JSON) (hres : response.Result = .obj result) :
    (∀ apps : Applications,
      api.CallWithError "application.create" (.applications apps) = .ok response →
      mapIndex result "applicationids" = .arr ids →
      (∀ l : List String, ids = l.map JSON.str → l.length ≤ apps.length →
        ApplicationsCreate api apps
          = .ret (List.zipWith (fun a id => { a with ApplicationID := id }) apps l
              ++ apps.drop l.length, none)) ∧
      ((apps.length < ids.length ∨ ∃ id ∈ ids, ∀ s, id ≠ JSON.str s) →
        ApplicationsCreate api apps = .panic)) ∧
    (∀ proxies : Proxies,
      api.CallWithError "proxy.create" (.proxies proxies) = .ok response →
      mapIndex result "proxyids" = .arr ids →
      (∀ l : List String, ids = l.map JSON.str → l.length ≤ proxies.length →
        ProxiesCreate api proxies
          = .ret (List.zipWith (fun a id => { a with ProxyID := id }) proxies l
              ++ proxies.drop l.length, none)) ∧
      ((proxies.length < ids.length ∨ ∃ id ∈ ids, ∀ s, id ≠ JSON.str s) →
        ProxiesCreate api proxies = .panic)) ∧
    (∀ users : Users,
      api.CallWithError "user.create" (.users users) = .ok response →
      mapIndex result "userids" = .arr ids →
      (∀ l : List String, ids = l.map JSON.str → l.length ≤ users.length →
        UsersCreate api users
          = .ret (List.zipWith (fun a id => { a with UserID := id }) users l
              ++ users.drop l.length, none)) ∧
      ((users.length < ids.length ∨ ∃ id ∈ ids, ∀ s, id ≠ JSON.str s) →
        UsersCreate api users = .panic)) ∧
    (∀ groups : UserGroups,
      api.CallWithError "usergroup.create" (.userGroups groups) = .ok response →
      mapIndex result "usrgrpids" = .arr ids →
      (∀ l : List String, ids = l.map JSON.str → l.length ≤ groups.length →
        UserGroupsCreate api groups
          = .ret (List.zipWith (fun a id => { a with UserGroupID := id }) groups l
              ++ groups.drop l.length, none)) ∧
      ((groups.length < ids.length ∨ ∃ id ∈ ids, ∀ s, id ≠ JSON.str s) →
        UserGroupsCreate api groups = .panic)) ∧
    (∀ items : LLDRules,
      api.CallWithError "discoveryrule.create" (.lldRules (prepLLDs codec items)) = .ok response →
      mapIndex result "itemids" = .arr ids →
      (∀ l : List String, ids = l.map JSON.str → l.length ≤ items.length →
        LLDsCreate api codec items
          = .ret (List.zipWith (fun a id => { a with ItemID := id }) (prepLLDs codec items) l
              ++ (prepLLDs codec items).drop l.length, none)) ∧
      ((items.length < ids.length ∨ ∃ id ∈ ids, ∀ s, id ≠ JSON.str s) →
        LLDsCreate api codec items = .panic)) := by
  have bad : ∀ {α : Type} (setID : α → String → α) (xs : List α),
      (xs.length < ids.length ∨ ∃ id ∈ ids, ∀ s, id ≠ JSON.str s) →
      assignIDs setID ids 0 xs = .panic := by
    intro α setID xs h
    rcases h with h | h
    · exact assignIDs_too_many setID ids 0 xs (Nat.zero_le _) (by simpa using h)
    · exact assignIDs_not_string setID ids h 0 xs
  refine ⟨?_, ?_, ?_, ?_, ?_⟩ <;> intro xs hcall hkey <;> refine ⟨?_, ?_⟩
  · intro l hl h
    subst hl
    simp [ApplicationsCreate, hcall, hres, hkey, assertMap, assertSlice, assignIDs_zero _ l xs h]
  · intro h
    simp [ApplicationsCreate, hcall, hres, hkey, assertMap, assertSlice, bad _ xs h]
  · intro l hl h
    subst hl
    simp [ProxiesCreate, hcall, hres, hkey, assertMap, assertSlice, assignIDs_zero _ l xs h]
  · intro h
    simp [ProxiesCreate, hcall, hres, hkey, assertMap, assertSlice, bad _ xs h]
  · intro l hl h
    subst hl
    simp [UsersCreate, hcall, hres, hkey, assertMap, assertSlice, assignIDs_zero _ l xs h]
  · intro h
    simp [UsersCreate, hcall, hres, hkey, assertMap, assertSlice, bad _ xs h]
  · intro l hl h
    subst hl
    simp [UserGroupsCreate, hcall, hres, hkey, assertMap, assertSlice, assignIDs_zero _ l xs h]
  · intro h
    simp [UserGroupsCreate, hcall, hres, hkey, assertMap, assertSlice, bad _ xs h]
  · intro l hl h
    subst hl
    have hp : (prepLLDs codec xs).length = xs.length := by simp [prepLLDs]
    simp [LLDsCreate, hcall, hres, hkey, assertMap, assertSlice,
      assignIDs_zero _ l (prepLLDs codec xs) (hp ▸ h)]
  · intro h
    have hp : (prepLLDs codec xs).length = xs.length := by simp [prepLLDs]
    simp [LLDsCreate, hcall, hres, hkey, assertMap, assertSlice,
      bad _ (prepLLDs codec xs) (hp ▸ h)]

/-- Witness of the amended C10: one id for two elements, two ids for one element, and
two ids of which one is a number for two elements. -/
theorem create_count_witness :
    ProxiesCreate (sampleAPI (sampleResponse (sampleResult (.arr [.str "10"]))) 0 "" none)
        [sampleProxy "", sampleProxy ""]
      = .ret ([sampleProxy "10", sampleProxy ""], none) ∧
    UsersCreate (sampleAPI (sampleResponse (sampleResult (.arr [.str "10", .str "11"]))) 0 "" none)
        [sampleUser ""] = .panic ∧
    UserGroupsCreate
        (sampleAPI (sampleResponse (sampleResult (.arr [.str "10", .num "11"]))) 0 "" none)
        [sampleUserGroup "", sampleUserGroup ""] = .panic :=
  ⟨((create_count (sampleAPI (sampleResponse (sampleResult (.arr [.str "10"]))) 0 "" none)
      sampleCodec ⟨"2.0", sampleResult (.arr [.str "10"]), 1⟩ _ [.str "10"] rfl).2.1
      [sampleProxy "", sampleProxy ""] rfl rfl).1 ["10"] rfl (by decide),
    ((create_count (sampleAPI (sampleResponse (sampleResult (.arr [.str "10", .str "11"]))) 0 "" none)
      sampleCodec ⟨"2.0", sampleResult (.arr [.str "10", .str "11"]), 1⟩ _ [.str "10", .str "11"]
      rfl).2.2.1 [sampleUser ""] rfl rfl).2 (Or.inl (by decide)),
    ((create_count (sampleAPI (sampleResponse (sampleResult (.arr [.str "10", .num "11"]))) 0 "" none)
      sampleCodec ⟨"2.0", sampleResult (.arr [.str "10", .num "11"]), 1⟩ _ [.str "10", .num "11"]
      rfl).2.2.2.1 [sampleUserGroup "", sampleUserGroup ""] rfl rfl).2
      (Or.inr ⟨.num "11", by simp, fun s h => by cases h⟩)⟩

/-! ## Get: the default for `output` -/

/-- Reading a key after the `output` default has been applied to a non-nil bag: `output`
holds the bag's own value if it had one and the string `extend` otherwise; every other
key reads as before. -/
theorem defaultOutput_lookup (m : List (String × JSON)) :
    ∃ m', defaultOutput (some m) = .ret (some m') ∧
      m'.lookup "output" = some ((m.lookup "output").getD (.str "extend")) ∧
      ∀ k : String, k ≠ "output" → m'.lookup k = m.lookup k := by
  cases hm : m.lookup "output" with
  | some v =>
    exact ⟨m, by simp [defaultOutput, hm], by simp [hm], fun _ _ => rfl⟩
  | none =>
    refine ⟨m ++ [("output", .str "extend")], by simp [defaultOutput, mapSet, hm], ?_, ?_⟩
    · simp [List.lookup_append, hm, List.lookup]
    · intro k hk
      have hne : (k == "output") = false := by simpa using hk
      simp [List.lookup_append, List.lookup, hne]

/-- C11: for each Get wrapper and every non-nil params bag `m`, the wrapper makes its
call with a bag `m'` that maps `output` to the value `m` had for it, or to the string
`extend` if `m` had none, and agrees with `m` on every other key; `m'` is also the
content of the caller's own bag afterwards. -/
theorem get_default_output (api : API) (codec : HeadersCodec) (m : List (String × JSON)) :
    ∃ m' : List (String × JSON),
      (m'.lookup "output" = some ((m.lookup "output").getD (.str "extend")) ∧
        ∀ k : String, k ≠ "output" → m'.lookup k = m.lookup k) ∧
      ApplicationsGet api (some m)
        = .ret (some m', (api.CallWithErrorParse .applications "application.get" (some m')).1,
            (api.CallWithErrorParse .applications "application.get" (some m')).2) ∧
      ProxiesGet api (some m)
        = .ret (some m', (api.CallWithErrorParse .proxies "proxy.get" (some m')).1,
            (api.CallWithErrorParse .proxies "proxy.get" (some m')).2) ∧
      UsersGet api (some m)
        = .ret (some m', (api.CallWithErrorParse .users "user.get" (some m')).1,
            (api.CallWithErrorParse .users "user.get" (some m')).2) ∧
      UserGroupsGet api (some m)
        = .ret (some m', (api.CallWithErrorParse .userGroups "usergroup.get" (some m')).1,
            (api.CallWithErrorParse .userGroups "usergroup.get" (some m')).2) ∧
      LLDsGet api codec (some m)
        = (lldsHeadersUnmarshal codec
            (api.CallWithErrorParse .lldRules "discoveryrule.get" (some m')).1).bind
          fun res => .ret (some m', res,
            (api.CallWithErrorParse .lldRules "discoveryrule.get" (some m')).2) := by
  obtain ⟨m', hd, hout, hrest⟩ := defaultOutput_lookup m
  refine ⟨m', ⟨hout, hrest⟩, ?_, ?_, ?_, ?_, ?_⟩
  · simp only [ApplicationsGet, hd, Outcome.bind_ret]
  · simp only [ProxiesGet, hd, Outcome.bind_ret]
  · simp only [UsersGet, hd, Outcome.bind_ret]
  · simp only [UserGroupsGet, hd, Outcome.bind_ret]
  · simp only [LLDsGet, hd, Outcome.bind_ret]

/-! ## Header decoding of discovery rules -/

/-- A raw message has length zero exactly when its text is empty. -/
theorem rawMessage_length_zero (raw : RawMessage) : raw.length = 0 ↔ raw = "" := by
  constructor
  · intro h
    cases raw with
    | mk data =>
      have hd : data = [] := by simpa [String.length] using h
      subst hd
      rfl
  · intro h
    subst h
    rfl

/-- One iteration of `lldsHeadersUnmarshal` on a rule without raw headers, or whose raw
headers are the text `[]`: the rule gets the empty header set and the loop goes on. -/
theorem lldsHeadersUnmarshal_cons_skip (codec : HeadersCodec) (h : LLDRule) (rest : LLDRules)
    (hs : h.RawHeaders = "" ∨ h.RawHeaders = "[]") :
    lldsHeadersUnmarshal codec (h :: rest)
      = (lldsHeadersUnmarshal codec rest).bind fun rest =>
          .ret ({ h with Headers := some [] } :: rest) := by
  by_cases h0 : h.RawHeaders.length = 0
  · simp only [lldsHeadersUnmarshal]
    rw [if_pos h0]
  · have h1 : h.RawHeaders = "[]" := by
      rcases hs with hs | hs
      · exact absurd ((rawMessage_length_zero _).2 hs) h0
      · exact hs
    simp only [lldsHeadersUnmarshal]
    rw [if_neg h0, if_pos h1]

/-- One iteration of `lldsHeadersUnmarshal` on a rule whose raw headers decode: the rule
gets the decoded headers and the loop goes on. -/
theorem lldsHeadersUnmarshal_cons_ok (codec : HeadersCodec) (h : LLDRule) (rest : LLDRules)
    (out : HttpHeaders) (h0 : h.RawHeaders ≠ "") (h1 : h.RawHeaders ≠ "[]")
    (hu : codec.Unmarshal h.RawHeaders = .ok out) :
    lldsHeadersUnmarshal codec (h :: rest)
      = (lldsHeadersUnmarshal codec rest).bind fun rest =>
          .ret ({ h with Headers := out } :: rest) := by
  have h0' : ¬ h.RawHeaders.length = 0 := fun hl => h0 ((rawMessage_length_zero _).1 hl)
  simp only [lldsHeadersUnmarshal]
  rw [if_neg h0', if_neg h1, hu]

/-- One iteration of `lldsHeadersUnmarshal` on a rule whose raw headers do not decode:
the call panics. -/
theorem lldsHeadersUnmarshal_cons_error (codec : HeadersCodec) (h : LLDRule) (rest : LLDRules)
    (msg : String) (h0 : h.RawHeaders ≠ "") (h1 : h.RawHeaders ≠ "[]")
    (hu : codec.Unmarshal h.RawHeaders = .error msg) :
    lldsHeadersUnmarshal codec (h :: rest) = .panic := by
  have h0' : ¬ h.RawHeaders.length = 0 := fun hl => h0 ((rawMessage_length_zero _).1 hl)
  simp only [lldsHeadersUnmarshal]
  rw [if_neg h0', if_neg h1, hu]

/-- When every rule that has raw headers other than `[]` decodes, `lldsHeadersUnmarshal`
returns, and each returned rule stands in the stated relation to the input rule at the
same position. -/
theorem lldsHeadersUnmarshal_returns (codec : HeadersCodec) :
    ∀ item : LLDRules,
      (∀ h ∈ item, h.RawHeaders ≠ "" → h.RawHeaders ≠ "[]" →
        ∃ out, codec.Unmarshal h.RawHeaders = .ok out) →
      ∃ res, lldsHeadersUnmarshal codec item = .ret res ∧
        List.Forall₂ (fun h r =>
          ((h.RawHeaders = "" ∨ h.RawHeaders = "[]") → r.Headers = some []) ∧
          (∀ out, h.RawHeaders ≠ "" → h.RawHeaders ≠ "[]" →
            codec.Unmarshal h.RawHeaders = .ok out → r.Headers = out) ∧
          { r with Headers := h.Headers } = h) item res := by
  intro item
  induction item with
  | nil => intro _; exact ⟨[], rfl, List.Forall₂.nil⟩
  | cons h rest ih =>
    intro hyp
    obtain ⟨res, hres, hrel⟩ := ih fun x hx => hyp x (List.mem_cons_of_mem _ hx)
    by_cases hs : h.RawHeaders = "" ∨ h.RawHeaders = "[]"
    · refine ⟨{ h with Headers := some [] } :: res, ?_, List.Forall₂.cons ⟨fun _ => rfl, ?_, rfl⟩ hrel⟩
      · rw [lldsHeadersUnmarshal_cons_skip codec h rest hs, hres]
        rfl
      · intro out h0 h1 _
        rcases hs with hs | hs
        · exact absurd hs h0
        · exact absurd hs h1
    · have h0 : h.RawHeaders ≠ "" := fun e => hs (Or.inl e)
      have h1 : h.RawHeaders ≠ "[]" := fun e => hs (Or.inr e)
      obtain ⟨out, hu⟩ := hyp h (List.mem_cons_self _ _) h0 h1
      refine ⟨{ h with Headers := out } :: res, ?_,
        List.Forall₂.cons ⟨fun e => absurd e hs, ?_, rfl⟩ hrel⟩
      · rw [lldsHeadersUnmarshal_cons_ok codec h rest out h0 h1 hu, hres]
        rfl
      · intro out' _ _ hu'
        rw [hu] at hu'
        exact Except.ok.inj hu'

/-- When some rule has raw headers other than `[]` that do not decode,
`lldsHeadersUnmarshal` panics. -/
theorem lldsHeadersUnmarshal_panics (codec : HeadersCodec) :
    ∀ item : LLDRules,
      (∃ h ∈ item, h.RawHeaders ≠ "" ∧ h.RawHeaders ≠ "[]" ∧
        ∃ msg, codec.Unmarshal h.RawHeaders = .error msg) →
      lldsHeadersUnmarshal codec item = .panic := by
  intro item
  induction item with
  | nil => rintro ⟨h, hm, _⟩; cases hm
  | cons h rest ih =>
    rintro ⟨x, hx, hx0, hx1, msg, hxu⟩
    by_cases hs : h.RawHeaders = "" ∨ h.RawHeaders = "[]"
    · have hne : x ≠ h := by
        rintro rfl
        rcases hs with hs | hs
        · exact hx0 hs
        · exact hx1 hs
      have hxr : x ∈ rest := by
        rcases List.mem_cons.1 hx with e | e
        · exact absurd e hne
        · exact e
      rw [lldsHeadersUnmarshal_cons_skip codec h rest hs, ih ⟨x, hxr, hx0, hx1, msg, hxu⟩]
      rfl
    · have h0 : h.RawHeaders ≠ "" := fun e => hs (Or.inl e)
      have h1 : h.RawHeaders ≠ "[]" := fun e => hs (Or.inr e)
      cases hu : codec.Unmarshal h.RawHeaders with
      | error m => exact lldsHeadersUnmarshal_cons_error codec h rest m h0 h1 hu
      | ok out =>
        have hne : x ≠ h := by
          rintro rfl
          rw [hu] at hxu
          cases hxu
        have hxr : x ∈ rest := by
          rcases List.mem_cons.1 hx with e | e
          · exact absurd e hne
          · exact e
        rw [lldsHeadersUnmarshal_cons_ok codec h rest out h0 h1 hu,
          ih ⟨x, hxr, hx0, hx1, msg, hxu⟩]
        rfl

/-- When `lldsHeadersUnmarshal` returns, the caller's slice holds the returned rules. -/
theorem lldsHeadersUnmarshalSlice_of_ret (codec : HeadersCodec) :
    ∀ (item res : LLDRules), lldsHeadersUnmarshal codec item = .ret res →
      lldsHeadersUnmarshalSlice codec item = res := by
  intro item
  induction item with
  | nil =>
    intro res h
    simpa [lldsHeadersUnmarshal, lldsHeadersUnmarshalSlice] using h
  | cons h rest ih =>
    intro res hres
    have h0iff := rawMessage_length_zero h.RawHeaders
    by_cases hs : h.RawHeaders = "" ∨ h.RawHeaders = "[]"
    · rw [lldsHeadersUnmarshal_cons_skip codec h rest hs] at hres
      have hslice : lldsHeadersUnmarshalSlice codec (h :: rest)
          = { h with Headers := some [] } :: lldsHeadersUnmarshalSlice codec rest := by
        simp only [lldsHeadersUnmarshalSlice]
        by_cases hl : h.RawHeaders.length = 0
        · rw [if_pos hl]
        · rw [if_neg hl, if_pos (hs.resolve_left fun e => hl (h0iff.2 e))]
      cases hrest : lldsHeadersUnmarshal codec rest with
      | panic => rw [hrest] at hres; cases hres
      | ret r =>
        rw [hrest] at hres
        rw [hslice, ih r hrest]
        exact Outcome.ret.inj hres
    · have h0 : h.RawHeaders ≠ "" := fun e => hs (Or.inl e)
      have h1 : h.RawHeaders ≠ "[]" := fun e => hs (Or.inr e)
      cases hu : codec.Unmarshal h.RawHeaders with
      | error m =>
        rw [lldsHeadersUnmarshal_cons_error codec h rest m h0 h1 hu] at hres
        cases hres
      | ok out =>
        rw [lldsHeadersUnmarshal_cons_ok codec h rest out h0 h1 hu] at hres
        have hslice : lldsHeadersUnmarshalSlice codec (h :: rest)
            = { h with Headers := out } :: lldsHeadersUnmarshalSlice codec rest := by
          simp only [lldsHeadersUnmarshalSlice]
          rw [if_neg (fun hl => h0 (h0iff.1 hl)), if_neg h1, hu]
        cases hrest : lldsHeadersUnmarshal codec rest with
        | panic => rw [hrest] at hres; cases hres
        | ret r =>
          rw [hrest] at hres
          rw [hslice, ih r hrest]
          exact Outcome.ret.inj hres

/-- C12 as stated fails: with a first rule whose raw headers do not decode and a second
rule without raw headers and with nil headers, `lldsHeadersUnmarshal` panics at the first
rule; the caller's slice then still holds the second rule with nil headers, although its
raw headers are empty. -/
theorem lldsHeadersUnmarshal_counterexample :
    lldsHeadersUnmarshal sampleCodec
        [sampleLLDRule "1" none "[\x7b\"name\":\"A\",\"value\":\"b\"\x7d]", sampleLLDRule "2" none ""]
      = .panic ∧
    lldsHeadersUnmarshalSlice sampleCodec
        [sampleLLDRule "1" none "[\x7b\"name\":\"A\",\"value\":\"b\"\x7d]", sampleLLDRule "2" none ""]
      = [sampleLLDRule "1" (some []) "[\x7b\"name\":\"A\",\"value\":\"b\"\x7d]",
          sampleLLDRule "2" none ""] ∧
    (sampleLLDRule "2" none "").RawHeaders = "" ∧
    (sampleLLDRule "2" none "").Headers ≠ some [] := by
  refine ⟨rfl, rfl, rfl, ?_⟩
  intro h
  cases h

/-- C12, amended: over every sequence of rules in which each rule with raw headers other
than `[]` decodes, `lldsHeadersUnmarshal` returns a sequence of the same length in which
each rule whose raw headers are empty or the text `[]` has the empty non-nil header set,
each other rule has the decoded headers, and every field other than `Headers` of every
rule is unchanged; over a sequence holding a rule whose raw headers do not decode, the
call panics. -/
theorem lldsHeadersUnmarshal_spec (codec : HeadersCodec) (item : LLDRules) :
    ((∀ h ∈ item, h.RawHeaders ≠ "" → h.RawHeaders ≠ "[]" →
        ∃ out, codec.Unmarshal h.RawHeaders = .ok out) →
      ∃ res, lldsHeadersUnmarshal codec item = .ret res ∧ res.length = item.length ∧
        ∀ (i : Nat) (hi : i < item.length) (hr : i < res.length),
          (((item.get ⟨i, hi⟩).RawHeaders = "" ∨ (item.get ⟨i, hi⟩).RawHeaders = "[]") →
            (res.get ⟨i, hr⟩).Headers = some []) ∧
          (∀ out, (item.get ⟨i, hi⟩).RawHeaders ≠ "" → (item.get ⟨i, hi⟩).RawHeaders ≠ "[]" →
            codec.Unmarshal (item.get ⟨i, hi⟩).RawHeaders = .ok out →
            (res.get ⟨i, hr⟩).Headers = out) ∧
          { res.get ⟨i, hr⟩ with Headers := (item.get ⟨i, hi⟩).Headers } = item.get ⟨i, hi⟩) ∧
    ((∃ h ∈ item, h.RawHeaders ≠ "" ∧ h.RawHeaders ≠ "[]" ∧
        ∃ msg, codec.Unmarshal h.RawHeaders = .error msg) →
      lldsHeadersUnmarshal codec item = .panic) := by
  refine ⟨fun hyp => ?_, lldsHeadersUnmarshal_panics codec item⟩
  obtain ⟨res, hres, hrel⟩ := lldsHeadersUnmarshal_returns codec item hyp
  obtain ⟨hlen, hget⟩ := List.forall₂_iff_get.1 hrel
  exact ⟨res, hres, hlen.symm, fun i hi hr => hget i hi hr⟩

/-- Witness of the amended C12: three rules that all pass, and a sequence whose first
rule does not decode. -/
theorem lldsHeadersUnmarshal_spec_witness :
    (∃ res, lldsHeadersUnmarshal sampleCodec
        [sampleLLDRule "1" none "", sampleLLDRule "2" none "[]", sampleLLDRule "3" none "\x7b\x7d"]
        = .ret res ∧ res.length = 3) ∧
    lldsHeadersUnmarshal sampleCodec
        [sampleLLDRule "1" none "[\x7b\"name\":\"A\",\"value\":\"b\"\x7d]", sampleLLDRule "2" none ""]
      = .panic :=
  ⟨((lldsHeadersUnmarshal_spec sampleCodec
        [sampleLLDRule "1" none "", sampleLLDRule "2" none "[]",
          sampleLLDRule "3" none "\x7b\x7d"]).1
      (by
        intro h hm h0 h1
        simp only [List.mem_cons, List.mem_singleton, List.not_mem_nil, or_false] at hm
        rcases hm with rfl | rfl | rfl
        · exact absurd rfl h0
        · exact absurd rfl h1
        · exact ⟨some [], rfl⟩)).imp fun _ hres => ⟨hres.1, hres.2.1⟩,
    (lldsHeadersUnmarshal_spec sampleCodec
        [sampleLLDRule "1" none "[\x7b\"name\":\"A\",\"value\":\"b\"\x7d]",
          sampleLLDRule "2" none ""]).2
      ⟨sampleLLDRule "1" none "[\x7b\"name\":\"A\",\"value\":\"b\"\x7d]", List.mem_cons_self _ _,
        by decide, by decide, "json: cannot unmarshal", rfl⟩⟩

end Zabbix
